import Mathlib

/-!
# Verification of the aiflow analysis orchestration core

A shallow embedding, in Lean 4, of the orchestration core of the `aiflow`
repository, together with proofs of the behavioural claims made by its
natural-language specification.  Three source files are embedded:

* `specs/backend/aiflow/analysis/queue.py`   — the priority task queue,
* `specs/backend/aiflow/analysis/engine.py`  — the five-stage analysis pipeline,
* `specs/backend/aiflow/protocol/validator.py` — the protocol validator.

Conventions used throughout the embedding:

* Python `dict`s keyed by strings (or by enum values) are modelled as
  association lists with insertion-order semantics (`alSet` replaces an
  existing binding in place and appends a fresh binding at the tail, exactly
  like CPython 3.7+ dictionaries).
* Python `set`s of ids are modelled as lists; only membership is ever used.
* `datetime.now()` results are modelled as explicit `Nat` time arguments.
* Calls that leave the process (the AI adapter, the Jinja renderer, the
  `jsonschema` library, the filesystem walk, `uuid4()` generation) are
  modelled as explicit parameters/oracles supplied to the embedded
  functions; everything else is translated from the Python source.
* Raised exceptions are modelled with `Except`; functions that cannot raise
  (because the source wraps every path in `try/except`) are total.
-/

set_option autoImplicit false

namespace AIFlow

/-- Insertion-ordered dictionary lookup (`d[k]` / `d.get(k)`): first binding
whose key equals `k`. -/
def alLookup {κ β : Type} [DecidableEq κ] (l : List (κ × β)) (k : κ) : Option β :=
  match l with
  | [] => none
  | (k', v) :: rest => if k' = k then some v else alLookup rest k

/-- Insertion-ordered dictionary write (`d[k] = v`): replaces an existing
binding in place, otherwise appends at the tail — CPython dict semantics. -/
def alSet {κ β : Type} [DecidableEq κ] (l : List (κ × β)) (k : κ) (v : β) : List (κ × β) :=
  match l with
  | [] => [(k, v)]
  | (k', v') :: rest => if k' = k then (k, v) :: rest else (k', v') :: alSet rest k v

/-! ## The task queue (`analysis/queue.py`)

`TaskQueue` hosts arbitrary asynchronous operations; the operation and its
result are opaque to the queue, so the model is polymorphic in the result
type `α` and the *outcome* of running an operation is an oracle value of
type `OpOutcome α` supplied at the point where `_run_task` awaits it. -/

namespace Queue

/-- Embeds `TaskPriority` (queue.py lines 22-27). -/
inductive TaskPriority
  | low
  | normal
  | high
  | urgent
  deriving DecidableEq, Repr

/-- Embeds `TaskPriority.value` (`LOW = 0, NORMAL = 1, HIGH = 2, URGENT = 3`). -/
def TaskPriority.value : TaskPriority → Nat
  | .low => 0
  | .normal => 1
  | .high => 2
  | .urgent => 3

/-- Enum definition order, as Python iterates `TaskPriority`. -/
def allPriorities : List TaskPriority := [.low, .normal, .high, .urgent]

/-- Embeds `sorted(TaskPriority, key=lambda p: p.value, reverse=True)` as computed
in `_get_next_task` (queue.py line 316). -/
def priorityDesc : List TaskPriority := [.urgent, .high, .normal, .low]

/-- Embeds `TaskState` (queue.py lines 30-37). -/
inductive TaskState
  | pending
  | running
  | completed
  | failed
  | cancelled
  | timeout
  deriving DecidableEq, Repr

/-- The exception stored in a task's `error` field: either the synthesized
`TimeoutError(f"Task timeout after {task.timeout}s")` (queue.py line 345) or
the exception raised by the operation itself (modelled by its message). -/
inductive TaskError
  | timeoutError (timeoutSecs : Option Nat)
  | opError (msg : String)
  deriving DecidableEq, Repr

/-- Embeds `QueueTask` (queue.py lines 40-55).  The `func/args/kwargs` fields hold
the external operation and are not part of the pure state; the operation's
behaviour enters the model through `OpOutcome` instead. -/
structure QueueTask (α : Type) where
  id : String
  name : String
  priority : TaskPriority
  state : TaskState
  result : Option α := none
  error : Option TaskError := none
  created_at : Nat
  started_at : Option Nat := none
  completed_at : Option Nat := none
  timeLimit : Option Nat := none
  deriving Repr

/-- The mutable state of a `TaskQueue` (queue.py lines 79-107): the task
store, the four priority sub-queues (deques of task ids) and the running
set.  The asyncio worker handle and shutdown event are not data. -/
structure TaskQueue (α : Type) where
  max_concurrent : Nat := 5
  max_queue_size : Nat := 1000
  tasks : List (String × QueueTask α) := []
  queues : TaskPriority → List String := fun _ => []
  running_tasks : List String := []

/-- Embeds `sum(len(q) for q in self.queues.values())` (queue.py line 173). -/
def TaskQueue.totalQueued {α : Type} (st : TaskQueue α) : Nat :=
  (st.queues .low).length + (st.queues .normal).length +
    (st.queues .high).length + (st.queues .urgent).length

/-- Embeds `TaskQueue.submit` (queue.py lines 146-196).  The fresh `uuid4()` id and
the creation time are external inputs, passed as `taskId` and `t`. -/
def TaskQueue.submit {α : Type} (st : TaskQueue α) (taskId nm : String)
    (priority : TaskPriority) (timeLimit : Option Nat) (t : Nat) :
    Except String (String × TaskQueue α) :=
  if st.max_queue_size ≤ st.totalQueued then
    .error "Queue is full"
  else
    let task : QueueTask α :=
      { id := taskId, name := nm, priority := priority, state := .pending,
        created_at := t, timeLimit := timeLimit }
    .ok (taskId,
      { st with
        tasks := alSet st.tasks taskId task,
        queues := fun p => if p = priority then st.queues p ++ [taskId] else st.queues p })

/-- Inner loop of `_get_next_task`: walk the given priority order and pop the
left end of the first non-empty deque. -/
def TaskQueue.getNextTaskAux {α : Type} (st : TaskQueue α) :
    List TaskPriority → Option (String × TaskQueue α)
  | [] => none
  | p :: ps =>
      match st.queues p with
      | [] => st.getNextTaskAux ps
      | taskId :: rest =>
          some (taskId, { st with queues := fun q => if q = p then rest else st.queues q })

/-- Embeds `TaskQueue._get_next_task` (queue.py lines 313-320): pop the front of the
highest-priority non-empty sub-queue; `none` when all are empty.  The Python
method mutates the deque and returns the id; the model returns the id
together with the updated state. -/
def TaskQueue.getNextTask {α : Type} (st : TaskQueue α) : Option (String × TaskQueue α) :=
  st.getNextTaskAux priorityDesc

/-- Embeds `TaskQueue.cancel` (queue.py lines 198-227).  `t` is the
`datetime.now()` completion timestamp. -/
def TaskQueue.cancel {α : Type} (st : TaskQueue α) (taskId : String) (t : Nat) :
    Bool × TaskQueue α :=
  match alLookup st.tasks taskId with
  | none => (false, st)
  | some task =>
      if task.state = .pending ∨ task.state = .running then
        let st1 :=
          if task.state = .pending then
            { st with queues := fun p =>
                if p = task.priority then (st.queues task.priority).erase taskId
                else st.queues p }
          else st
        let task' := { task with state := .cancelled, completed_at := some t }
        (true, { st1 with tasks := alSet st1.tasks taskId task' })
      else (false, st)

/-- The outcome of awaiting a task's operation inside `_run_task`
(queue.py lines 331-352): a normal return value, an `asyncio.TimeoutError`
from `wait_for` (only possible when a timeout is configured), an
`asyncio.CancelledError`, or any other exception (carried by message). -/
inductive OpOutcome (α : Type)
  | ok (v : α)
  | timedOut
  | cancelledError
  | raised (msg : String)
  deriving DecidableEq, Repr

/-- Python `set.add` on the running set (ids are unique, membership is all
that is used). -/
def setAdd (l : List String) (x : String) : List String :=
  if x ∈ l then l else l ++ [x]

/-- Python `set.discard`. -/
def setDiscard (l : List String) (x : String) : List String := l.erase x

/-- First half of `_run_task` (queue.py lines 324-329): mark running, record
`started_at`, add to the running set. -/
def TaskQueue.runTaskStart {α : Type} (st : TaskQueue α) (taskId : String) (t1 : Nat) :
    TaskQueue α :=
  match alLookup st.tasks taskId with
  | none => st
  | some task =>
      { st with
        tasks := alSet st.tasks taskId { task with state := .running, started_at := some t1 },
        running_tasks := setAdd st.running_tasks taskId }

/-- The `try/except` ladder of `_run_task` (queue.py lines 331-352) applied
to the task record: each branch overwrites `state` (and `result`/`error`)
unconditionally. -/
def applyOutcome {α : Type} (task : QueueTask α) (outcome : OpOutcome α) : QueueTask α :=
  match outcome with
  | .ok v => { task with result := some v, state := .completed }
  | .timedOut => { task with state := .timeout, error := some (.timeoutError task.timeLimit) }
  | .cancelledError => { task with state := .cancelled }
  | .raised msg => { task with state := .failed, error := some (.opError msg) }

/-- Second half of `_run_task`: the `try/except/finally` (queue.py lines
331-356).  Every branch falls through to the `finally` block, which stamps
`completed_at` and removes the id from the running set; no exception escapes
to the dispatch loop. -/
def TaskQueue.runTaskFinish {α : Type} (st : TaskQueue α) (taskId : String)
    (outcome : OpOutcome α) (t2 : Nat) : TaskQueue α :=
  match alLookup st.tasks taskId with
  | none => st
  | some task =>
      { st with
        tasks := alSet st.tasks taskId { applyOutcome task outcome with completed_at := some t2 },
        running_tasks := setDiscard st.running_tasks taskId }

/-- Embeds `TaskQueue._run_task` (queue.py lines 322-356) end to end: start at time
`t1`, observe the operation's outcome, finish at time `t2`. -/
def TaskQueue.runTask {α : Type} (st : TaskQueue α) (taskId : String)
    (outcome : OpOutcome α) (t1 t2 : Nat) : TaskQueue α :=
  (st.runTaskStart taskId t1).runTaskFinish taskId outcome t2

/-- Fuel-indexed repeated dispatch: pop tasks with `_get_next_task` until the
queues are empty (or the fuel runs out). -/
def TaskQueue.drainFuel {α : Type} : Nat → TaskQueue α → List String
  | 0, _ => []
  | n + 1, st =>
      match st.getNextTask with
      | none => []
      | some (taskId, st') => taskId :: TaskQueue.drainFuel n st'

/-- The complete dispatch order of the current pending queues: repeated
`_get_next_task` until empty. -/
def TaskQueue.drain {α : Type} (st : TaskQueue α) : List String :=
  st.drainFuel st.totalQueued

end Queue

/-! ## JSON values

A minimal JSON value model for the stage payloads (`json.loads` results) and
the merged report.  Numbers are modelled as integers (no claim depends on
float payload values) and `dumps` performs no character escaping. -/

inductive Json
  | null
  | bool (b : Bool)
  | num (n : Int)
  | str (s : String)
  | arr (elems : List Json)
  | obj (fields : List (String × Json))

mutual

/-- Embeds `json.dumps` with default separators (`", "` and `": "`). -/
def Json.dumps : Json → String
  | .null => "null"
  | .bool true => "true"
  | .bool false => "false"
  | .num n => toString n
  | .str s => "\"" ++ s ++ "\""
  | .arr xs => "[" ++ Json.dumpsElems xs ++ "]"
  | .obj fs => "\x7b" ++ Json.dumpsFields fs ++ "\x7d"

def Json.dumpsElems : List Json → String
  | [] => ""
  | [x] => Json.dumps x
  | x :: xs => Json.dumps x ++ ", " ++ Json.dumpsElems xs

def Json.dumpsFields : List (String × Json) → String
  | [] => ""
  | [(k, v)] => "\"" ++ k ++ "\": " ++ Json.dumps v
  | (k, v) :: fs => "\"" ++ k ++ "\": " ++ Json.dumps v ++ ", " ++ Json.dumpsFields fs

end

/-- A stage payload: the top-level JSON object produced by parsing the model
response (`Dict[str, Any]`). -/
def Payload : Type := List (String × Json)

/-- Embeds `d.get(k, default)` on a JSON object's fields. -/
def jget (d : Payload) (k : String) (default : Json) : Json :=
  match alLookup d k with
  | some v => v
  | none => default

/-! ## The analysis engine (`analysis/engine.py`) -/

namespace Engine

/-- Embeds `AnalysisStage` (engine.py lines 29-35). -/
inductive AnalysisStage
  | project_understanding
  | structure_recognition
  | semantic_analysis
  | execution_inference
  | concurrency_detection
  deriving DecidableEq, Repr

/-- Embeds `AnalysisStatus` (engine.py lines 38-44). -/
inductive AnalysisStatus
  | pending
  | running
  | completed
  | failed
  | cancelled
  deriving DecidableEq, Repr

/-- Embeds `AnalysisEngine.STAGE_ORDER` (engine.py lines 104-110). -/
def STAGE_ORDER : List AnalysisStage :=
  [.project_understanding, .structure_recognition, .semantic_analysis,
   .execution_inference, .concurrency_detection]

/-- Embeds `StageResult` (engine.py lines 47-57).  The `ai_response` and
`validation_result` metadata fields (raw adapter response, validator result
object) are external data not used by any claim and are omitted. -/
structure StageResult where
  stage : AnalysisStage
  status : AnalysisStatus
  data : Option Payload := none
  error : Option String := none
  started_at : Option Nat := none
  completed_at : Option Nat := none

/-- Embeds `AnalysisJob` (engine.py lines 67-86). -/
structure AnalysisJob where
  id : String
  language : String
  project_path : String
  project_name : String
  status : AnalysisStatus
  current_stage : Option AnalysisStage := none
  stage_results : List (AnalysisStage × StageResult) := []
  final_result : Option Payload := none
  created_at : Nat
  started_at : Option Nat := none
  completed_at : Option Nat := none

/-- The outcome of one stage's external round trip inside
`AnalysisEngine._run_stage` (engine.py lines 260-307): either the rendered
prompt / adapter call / `json.loads` / validation pipeline produced a valid
payload (`success`), or `json.loads` raised (`jsonError`), or the validator
rejected the payload (`validationFailed`, carrying the rendered error list),
or the prompt renderer / adapter raised (`exn`).  These are exactly the four
result-producing paths of `_run_stage`. -/
inductive StageOutcome
  | success (data : Payload)
  | jsonError (msg : String)
  | validationFailed (msg : String)
  | exn (msg : String)

/-- Whether the outcome is the success path. -/
def StageOutcome.isSuccess : StageOutcome → Bool
  | .success _ => true
  | _ => false

/-- Embeds `AnalysisEngine._run_stage` (engine.py lines 239-309) given the external
outcome: every failure path records `status = FAILED` with the error string
and `completed_at`; the success path records the payload and
`status = COMPLETED`.  `t1`/`t2` are the start/completion clock reads. -/
def runStage (stage : AnalysisStage) (outcome : StageOutcome) (t1 t2 : Nat) : StageResult :=
  let base : StageResult := { stage := stage, status := .running, started_at := some t1 }
  match outcome with
  | .success d =>
      { base with data := some d, status := .completed, completed_at := some t2 }
  | .jsonError m =>
      { base with
          status := .failed,
          error := some ("Invalid JSON response: " ++ m),
          completed_at := some t2 }
  | .validationFailed m =>
      { base with
          status := .failed,
          error := some ("Validation failed: " ++ m),
          completed_at := some t2 }
  | .exn m =>
      { base with status := .failed, error := some m, completed_at := some t2 }

/-- The accumulator seed of `AnalysisEngine._merge_results`
(engine.py lines 411-417). -/
def mergedSeed : Payload :=
  [("$schema", .str "https://aiflow.dev/schemas/analysis-v1.0.0.json"),
   ("version", .str "1.0.0"),
   ("project_metadata", .obj []),
   ("code_structure", .obj [("nodes", .arr []), ("edges", .arr [])]),
   ("execution_trace", .obj [("traceable_units", .arr [])])]

/-- Python `dict.update`: write each binding of `u` into `d` in order. -/
def dictUpdate (d u : Payload) : Payload :=
  u.foldl (fun acc kv => alSet acc kv.1 kv.2) d

/-- Python truthiness of an optional payload (`if stage_result.data:`):
`None` and the empty dict are falsy. -/
def truthyPayload : Option Payload → Option Payload
  | none => none
  | some d => if d.isEmpty then none else some d

/-- Embeds `AnalysisEngine._merge_results` (engine.py lines 401-424): fold the
per-stage payloads over the seed in stage order; `if stage_result and
stage_result.data` skips missing results and falsy (absent/empty) payloads. -/
def mergeResults (stage_results : List (AnalysisStage × StageResult)) : Payload :=
  STAGE_ORDER.foldl
    (fun acc stage =>
      match alLookup stage_results stage with
      | some sr =>
          match truthyPayload sr.data with
          | some d => dictUpdate acc d
          | none => acc
      | none => acc)
    mergedSeed

/-- Embeds `AnalysisEngine._prepare_stage_input` (engine.py lines 311-368).  The
input mapping's values are all strings.  `fileTree` is the external
filesystem walk (`_get_file_tree`), `nowIso` the `datetime.now().isoformat()`
reading and `modelName` the adapter's model name; they are consumed only by
the first stage's branch.  Note that the `execution_inference` and
`concurrency_detection` branches do not exist in the source (the dispatch
ends with a placeholder comment), so those stages receive only the two
identity fields. -/
def prepareStageInput (job : AnalysisJob) (stage : AnalysisStage)
    (fileTree nowIso modelName : String) : List (String × String) :=
  let input0 : List (String × String) :=
    [("project_path", job.project_path), ("project_name", job.project_name)]
  match stage with
  | .project_understanding =>
      let i1 := alSet input0 "file_tree" fileTree
      let i2 := alSet i1 "current_timestamp_iso8601" (nowIso ++ "Z")
      alSet i2 "ai_model_name" modelName
  | .structure_recognition =>
      match alLookup job.stage_results .project_understanding with
      | some prev =>
          match truthyPayload prev.data with
          | some d =>
              alSet input0 "project_metadata_json"
                (Json.dumps (jget d "project_metadata" (.obj [])))
          | none => input0
      | none => input0
  | .semantic_analysis =>
      let prevs := [alLookup job.stage_results .project_understanding,
                    alLookup job.stage_results .structure_recognition]
      prevs.foldl
        (fun acc prevOpt =>
          match prevOpt with
          | some prev =>
              match truthyPayload prev.data with
              | some d =>
                  let acc1 := alSet acc "project_metadata_json"
                    (Json.dumps (jget d "project_metadata" (.obj [])))
                  alSet acc1 "code_structure_json"
                    (Json.dumps (jget d "code_structure" (.obj [])))
              | none => acc
          | none => acc)
        input0
  | .execution_inference => input0
  | .concurrency_detection => input0

/-- The errors `AnalysisEngine.run_job` raises before touching the job
(engine.py lines 189-195): `ValueError` for an unknown id, `RuntimeError`
when the job's status is `RUNNING` or `COMPLETED`. -/
inductive RunJobErr
  | jobNotFound (jobId : String)
  | jobAlready (status : AnalysisStatus) (jobId : String)
  deriving DecidableEq, Repr

/-- The stage loop of `AnalysisEngine.run_job` (engine.py lines 201-230):
set `current_stage`, run the stage, record its result, stop with a `FAILED`
job at the first failed stage; after the loop merge the payloads and mark
the job `COMPLETED`.  The optional progress callback is observation only and
is not modelled.  `t` stands for the `datetime.now()` reads. -/
def runStages (outcomes : AnalysisStage → StageOutcome) (t : Nat) :
    List AnalysisStage → AnalysisJob → AnalysisJob
  | [], job =>
      let job := { job with final_result := some (mergeResults job.stage_results) }
      { job with status := .completed, completed_at := some t }
  | stage :: rest, job =>
      let job := { job with current_stage := some stage }
      let sr := runStage stage (outcomes stage) t t
      let job := { job with stage_results := alSet job.stage_results stage sr }
      if sr.status = .failed then { job with status := .failed, completed_at := some t }
      else runStages outcomes t rest job

/-- Embeds `AnalysisEngine.run_job` (engine.py lines 170-237) over the engine's
`jobs` dictionary.  Returns the raised error or the finished job, together
with the resulting `jobs` dictionary (the Python method mutates the stored
job object in place; an error is raised before any mutation, leaving the
dictionary untouched). -/
def runJob (jobs : List (String × AnalysisJob)) (jobId : String)
    (outcomes : AnalysisStage → StageOutcome) (t : Nat) :
    Except RunJobErr AnalysisJob × List (String × AnalysisJob) :=
  match alLookup jobs jobId with
  | none => (.error (.jobNotFound jobId), jobs)
  | some job =>
      if job.status = .running ∨ job.status = .completed then
        (.error (.jobAlready job.status jobId), jobs)
      else
        let job1 := { job with status := .running, started_at := some t }
        let job2 := runStages outcomes t STAGE_ORDER job1
        (.ok job2, alSet jobs jobId job2)

/-- A sample job record used by concrete witnesses. -/
def sampleJob (i : String) (st : AnalysisStatus) : AnalysisJob :=
  { id := i, language := "python", project_path := "/p", project_name := "p",
    status := st, created_at := 0 }

end Engine

/-! ## The protocol validator (`protocol/validator.py`)

The validator walks a parsed JSON report accessing a fixed set of fields
with `dict.get` defaults, so the report is embedded as typed records whose
optional fields model absent keys (`None`).  The Python error strings
interpolate entity indices and offending ids into fixed f-string templates;
the embedding keeps them as structured values carrying exactly the
interpolated data, one constructor per template. -/

namespace Validator

/-- Python string truthiness of an optional value (`if ts:` / `if node_id:`):
`None` and the empty string are falsy. -/
def pyTruthy : Option String → Option String
  | none => none
  | some s => if s = "" then none else some s

/-- Embeds `enumerate(l, start)`. -/
def enumFrom {γ : Type} (i : Nat) : List γ → List (Nat × γ)
  | [] => []
  | a :: l => (i, a) :: enumFrom (i + 1) l

/-- A `for idx, x in enumerate(l):` loop appending `f idx x` on each
iteration, starting at index `start`. -/
def collectIdx {γ δ : Type} (start : Nat) (l : List γ) (f : Nat → γ → List δ) : List δ :=
  match l with
  | [] => []
  | a :: rest => f start a ++ collectIdx (start + 1) rest f

/-- A plain `for x in l:` loop appending `f x` on each iteration. -/
def collectAll {γ δ : Type} (l : List γ) (f : γ → List δ) : List δ :=
  match l with
  | [] => []
  | a :: rest => f a ++ collectAll rest f

/-! ### The report data model

One structure per entity shape the validator reads; optional fields model
keys that `dict.get` may find absent, list fields model keys read with a
`[]` default. -/

structure CodeNode where
  id : Option String := none
  parent : Option String := none
  deriving DecidableEq, Repr

structure CodeEdge where
  source : Option String := none
  target : Option String := none
  deriving DecidableEq, Repr

structure CodeStructure where
  nodes : List CodeNode := []
  edges : List CodeEdge := []
  deriving DecidableEq, Repr

structure HistoryEntry where
  timestamp : Option String := none
  deriving DecidableEq, Repr

/-- One entry of a scope's `"variables"` JSON array (the field is named
`vars` here because `variables` is reserved in Lean). -/
structure VarEntry where
  history : List HistoryEntry := []
  deriving DecidableEq, Repr

structure ExecutionStep where
  id : Option String := none
  scope_id : Option String := none
  execution_order : Option Int := none
  timestamp : Option String := none
  deriving DecidableEq, Repr

structure VariableScope where
  id : Option String := none
  parent_scope_id : Option String := none
  execution_order : Option Int := none
  timestamp : Option String := none
  vars : List VarEntry := []
  deriving DecidableEq, Repr

structure StackFrame where
  id : Option String := none
  local_scope_id : Option String := none
  parent_frame_id : Option String := none
  execution_order : Option Int := none
  timestamp : Option String := none
  deriving DecidableEq, Repr

structure TraceData where
  steps : List ExecutionStep := []
  variableScopes : List VariableScope := []
  callStack : List StackFrame := []
  deriving DecidableEq, Repr

structure Trace where
  format : Option String := none
  data : TraceData := {}
  deriving DecidableEq, Repr

structure TraceableUnit where
  id : Option String := none
  traces : List Trace := []
  deriving DecidableEq, Repr

structure ExecutionTrace where
  traceable_units : List TraceableUnit := []
  deriving DecidableEq, Repr

structure ConcurrencyFlow where
  id : Option String := none
  start_point : Option String := none
  end_point : Option String := none
  involved_units : List String := []
  deriving DecidableEq, Repr

structure SyncPoint where
  waiting_flows : List String := []
  deriving DecidableEq, Repr

structure ConcurrencyInfo where
  flows : List ConcurrencyFlow := []
  sync_points : List SyncPoint := []
  deriving DecidableEq, Repr

structure LaunchButton where
  node_id : Option String := none
  deriving DecidableEq, Repr

structure BehaviorMetadata where
  launch_buttons : List LaunchButton := []
  deriving DecidableEq, Repr

structure ProjectMetadata where
  analyzed_at : Option String := none
  deriving DecidableEq, Repr

/-- The report object passed to the validator; an absent optional section
models a missing top-level key (`if "code_structure" in data:`). -/
structure Report where
  project_metadata : Option ProjectMetadata := none
  code_structure : Option CodeStructure := none
  execution_trace : Option ExecutionTrace := none
  concurrency_info : Option ConcurrencyInfo := none
  behavior_metadata : Option BehaviorMetadata := none
  deriving DecidableEq, Repr

/-! ### Check 2 — timestamp format (`_validate_timestamps`, lines 152-211) -/

/-- Embeds `\d` restricted to ASCII digits (the source regex, applied to model
output, only ever sees ASCII). -/
def isDig (c : Char) : Bool := c.isDigit

/-- The part of `ISO_8601_PATTERN` after the seconds: `(\.\d{3})?Z?$`. -/
def isoTail : List Char → Bool
  | [] => true
  | ['Z'] => true
  | '.' :: d1 :: d2 :: d3 :: rest =>
      isDig d1 && isDig d2 && isDig d3 && (rest = [] || rest = ['Z'])
  | _ => false

/-- Full match of `^\d{4}-\d{2}-\d{2}T\d{2}:\d{2}:\d{2}(\.\d{3})?Z?$`
against a character list. -/
def isoCore : List Char → Bool
  | y1 :: y2 :: y3 :: y4 :: '-' :: m1 :: m2 :: '-' :: d1 :: d2 :: 'T' ::
      h1 :: h2 :: ':' :: mi1 :: mi2 :: ':' :: s1 :: s2 :: rest =>
      isDig y1 && isDig y2 && isDig y3 && isDig y4 && isDig m1 && isDig m2 &&
        isDig d1 && isDig d2 && isDig h1 && isDig h2 && isDig mi1 && isDig mi2 &&
        isDig s1 && isDig s2 && isoTail rest
  | _ => false

/-- Embeds `ISO_8601_PATTERN.match(value)` (validator.py lines 65-67).  Python's
`$` also matches just before a newline that ends the string, hence the
second disjunct. -/
def isoMatch (s : String) : Bool :=
  isoCore s.toList ||
    (match s.toList.getLast? with
     | some c => c = '\n' && isoCore s.toList.dropLast
     | none => false)

/-- One timestamp error, per f-string template of `_validate_timestamps`:
the path indices and the offending value. -/
inductive TimestampErr
  | analyzedAt (value : String)
  | stepTs (unitIdx traceIdx stepIdx : Nat) (value : String)
  | scopeTs (unitIdx traceIdx scopeIdx : Nat) (value : String)
  | historyTs (unitIdx traceIdx scopeIdx varIdx histIdx : Nat) (value : String)
  | frameTs (unitIdx traceIdx frameIdx : Nat) (value : String)
  deriving DecidableEq, Repr

/-- Embeds `check_timestamp` at one site: truthy values failing the pattern
produce the error for that site. -/
def checkTs (mk : String → TimestampErr) (ts : Option String) : List TimestampErr :=
  match pyTruthy ts with
  | some v => if isoMatch v then [] else [mk v]
  | none => []

/-- Embeds `ProtocolValidator._validate_timestamps` (validator.py lines 152-211). -/
def tsErrors (r : Report) : List TimestampErr :=
  (match r.project_metadata with
   | none => []
   | some pm => checkTs .analyzedAt pm.analyzed_at)
  ++ (match r.execution_trace with
      | none => []
      | some et =>
          collectIdx 0 et.traceable_units (fun ui u =>
            collectIdx 0 u.traces (fun ti tr =>
              if tr.format = some "step-by-step" then
                collectIdx 0 tr.data.steps (fun si st =>
                  checkTs (.stepTs ui ti si) st.timestamp)
                ++ collectIdx 0 tr.data.variableScopes (fun si sc =>
                    checkTs (.scopeTs ui ti si) sc.timestamp
                    ++ collectIdx 0 sc.vars (fun vi v =>
                        collectIdx 0 v.history (fun hi h =>
                          checkTs (.historyTs ui ti si vi hi) h.timestamp)))
                ++ collectIdx 0 tr.data.callStack (fun fi fr =>
                    checkTs (.frameTs ui ti fi) fr.timestamp)
              else [])))

/-! ### Check 3 — UUID v4 format (`_validate_uuids`, lines 213-272) -/

/-- The site of a UUID check, per f-string path template. -/
inductive UuidField
  | nodeId (nodeIdx : Nat)
  | unitId (unitIdx : Nat)
  | stepId (unitIdx traceIdx stepIdx : Nat)
  | scopeId (unitIdx traceIdx scopeIdx : Nat)
  | frameId (unitIdx traceIdx frameIdx : Nat)
  deriving DecidableEq, Repr

/-- The two error templates of `check_uuid`: `ValueError` from the `UUID`
constructor (`badFormat`) and canonical-string round-trip failure
(`notV4`). -/
inductive UuidErr
  | badFormat (loc : UuidField) (value : String)
  | notV4 (loc : UuidField) (value : String)
  deriving DecidableEq, Repr

def hexVal (c : Char) : Option Nat :=
  if c.isDigit then some (c.toNat - 48)
  else if 'a' ≤ c && c ≤ 'f' then some (c.toNat - 87)
  else if 'A' ≤ c && c ≤ 'F' then some (c.toNat - 55)
  else none

/-- Parse a big-endian hex digit string. -/
def parseHex (cs : List Char) : Option Nat :=
  cs.foldl
    (fun acc c =>
      match acc, hexVal c with
      | some n, some d => some (n * 16 + d)
      | _, _ => none)
    (some 0)

def isBraceChar (c : Char) : Bool := c = Char.ofNat 123 || c = Char.ofNat 125

/-- Python `str.strip('{}')`: drop brace characters from both ends. -/
def stripBraces (cs : List Char) : List Char :=
  ((cs.dropWhile isBraceChar).reverse.dropWhile isBraceChar).reverse

def hexChar (n : Nat) : Char :=
  if n < 10 then Char.ofNat (48 + n) else Char.ofNat (87 + n)

/-- Fixed-width lowercase hex rendering (`'%032x' % int`). -/
def natToHex : Nat → Nat → List Char
  | 0, _ => []
  | w + 1, n => natToHex w (n / 16) ++ [hexChar (n % 16)]

/-- Embeds `str(uuid_obj)`: 32 hex digits grouped 8-4-4-4-12. -/
def uuidRender (n : Nat) : String :=
  let h := natToHex 32 n
  String.mk (h.take 8) ++ "-" ++ String.mk ((h.drop 8).take 4) ++ "-" ++
    String.mk ((h.drop 12).take 4) ++ "-" ++ String.mk ((h.drop 16).take 4) ++ "-" ++
    String.mk (h.drop 20)

/-- Embeds `uuid.UUID(value, version=4)` followed by `str(...)`: normalise the text
(drop `urn:`/`uuid:` markers, strip braces, drop dashes), require exactly 32
hex digits, then force the RFC 4122 version-4 and variant bits and re-render
canonically.  `none` models the constructor's `ValueError`.  (CPython's
`int(hex, 16)` would additionally tolerate exotic forms such as embedded
underscores or a `0x` prefix inside the 32 characters; those are not
modelled.) -/
def uuidCanonV4 (value : String) : Option String :=
  let h := (value.replace "urn:" "").replace "uuid:" ""
  let cs := (stripBraces h.toList).filter (fun c => c ≠ '-')
  if cs.length = 32 then
    match parseHex cs with
    | some n =>
        let n1 := (n - (n &&& (0xc000 <<< 48))) ||| (0x8000 <<< 48)
        let n2 := (n1 - (n1 &&& (0xf000 <<< 64))) ||| (4 <<< 76)
        some (uuidRender n2)
    | none => none
  else none

/-- Embeds `check_uuid` (validator.py lines 217-225) at one site. -/
def checkUuid (loc : UuidField) (idv : Option String) : List UuidErr :=
  match pyTruthy idv with
  | none => []
  | some value =>
      match uuidCanonV4 value with
      | none => [.badFormat loc value]
      | some canon => if canon ≠ value then [.notV4 loc value] else []

/-- Embeds `ProtocolValidator._validate_uuids` (validator.py lines 213-272). -/
def uuidErrors (r : Report) : List UuidErr :=
  (match r.code_structure with
   | none => []
   | some cs => collectIdx 0 cs.nodes (fun ni n => checkUuid (.nodeId ni) n.id))
  ++ (match r.execution_trace with
      | none => []
      | some et =>
          collectIdx 0 et.traceable_units (fun ui u =>
            checkUuid (.unitId ui) u.id
            ++ collectIdx 0 u.traces (fun ti tr =>
                if tr.format = some "step-by-step" then
                  collectIdx 0 tr.data.steps (fun si st =>
                    checkUuid (.stepId ui ti si) st.id)
                  ++ collectIdx 0 tr.data.variableScopes (fun si sc =>
                      checkUuid (.scopeId ui ti si) sc.id)
                  ++ collectIdx 0 tr.data.callStack (fun fi fr =>
                      checkUuid (.frameId ui ti fi) fr.id)
                else [])))

/-! ### Check 4 — referential integrity (`_validate_references`, lines 274-433) -/

/-- One hard referential-integrity error, per f-string template: the
offending entity's indices and the missing id. -/
inductive RefError
  | launchButtonNode (btnIdx : Nat) (nodeId : String)
  | edgeSource (edgeIdx : Nat) (sourceId : String)
  | edgeTarget (edgeIdx : Nat) (targetId : String)
  | nodeParent (nodeIdx : Nat) (parentId : String)
  | stepScope (unitIdx traceIdx stepIdx : Nat) (scopeId : String)
  | scopeParent (unitIdx traceIdx scopeIdx : Nat) (parentScopeId : String)
  | frameLocalScope (unitIdx traceIdx frameIdx : Nat) (scopeId : String)
  | frameParent (unitIdx traceIdx frameIdx : Nat) (parentFrameId : String)
  | flowStart (flowIdx : Nat) (nodeId : String)
  | flowEnd (flowIdx : Nat) (nodeId : String)
  | syncWaitingFlow (syncIdx : Nat) (flowId : String)
  deriving DecidableEq, Repr

/-- The single soft referential-integrity warning template:
`involved_units` naming a non-existent traceable unit. -/
inductive RefWarning
  | flowInvolvedUnit (flowIdx : Nat) (unitId : String)
  deriving DecidableEq, Repr

/-- The collected `node_ids` set (membership only). -/
def nodeIds (r : Report) : List String :=
  match r.code_structure with
  | none => []
  | some cs => cs.nodes.filterMap (fun n => pyTruthy n.id)

/-- The collected `traceable_unit_ids` set. -/
def traceableUnitIds (r : Report) : List String :=
  match r.execution_trace with
  | none => []
  | some et => et.traceable_units.filterMap (fun u => pyTruthy u.id)

/-- The collected `scope_ids` set (global across all step-by-step traces). -/
def scopeIds (r : Report) : List String :=
  match r.execution_trace with
  | none => []
  | some et =>
      collectAll et.traceable_units (fun u =>
        collectAll u.traces (fun tr =>
          if tr.format = some "step-by-step" then
            tr.data.variableScopes.filterMap (fun sc => pyTruthy sc.id)
          else []))

/-- The collected `frame_ids` set (global across all step-by-step traces). -/
def frameIds (r : Report) : List String :=
  match r.execution_trace with
  | none => []
  | some et =>
      collectAll et.traceable_units (fun u =>
        collectAll u.traces (fun tr =>
          if tr.format = some "step-by-step" then
            tr.data.callStack.filterMap (fun fr => pyTruthy fr.id)
          else []))

/-- The collected `flow_ids` set. -/
def flowIds (r : Report) : List String :=
  match r.concurrency_info with
  | none => []
  | some ci => ci.flows.filterMap (fun f => pyTruthy f.id)

/-- A truthy foreign key absent from its target id collection produces the
given error. -/
def checkRef (ids : List String) (mk : String → RefError) (fk : Option String) :
    List RefError :=
  match pyTruthy fk with
  | some v => if v ∈ ids then [] else [mk v]
  | none => []

/-- The `errors` component of `ProtocolValidator._validate_references`
(validator.py lines 274-433), in the source's append order. -/
def refErrors (r : Report) : List RefError :=
  (match r.behavior_metadata with
   | none => []
   | some bm =>
      collectIdx 0 bm.launch_buttons (fun bi btn =>
        checkRef (nodeIds r) (.launchButtonNode bi) btn.node_id))
  ++ (match r.code_structure with
      | none => []
      | some cs =>
          collectIdx 0 cs.edges (fun ei e =>
            checkRef (nodeIds r) (.edgeSource ei) e.source
            ++ checkRef (nodeIds r) (.edgeTarget ei) e.target)
          ++ collectIdx 0 cs.nodes (fun ni n =>
              checkRef (nodeIds r) (.nodeParent ni) n.parent))
  ++ (match r.execution_trace with
      | none => []
      | some et =>
          collectIdx 0 et.traceable_units (fun ui u =>
            collectIdx 0 u.traces (fun ti tr =>
              if tr.format = some "step-by-step" then
                collectIdx 0 tr.data.steps (fun si st =>
                  checkRef (scopeIds r) (.stepScope ui ti si) st.scope_id)
                ++ collectIdx 0 tr.data.variableScopes (fun si sc =>
                    checkRef (scopeIds r) (.scopeParent ui ti si) sc.parent_scope_id)
                ++ collectIdx 0 tr.data.callStack (fun fi fr =>
                    checkRef (scopeIds r) (.frameLocalScope ui ti fi) fr.local_scope_id
                    ++ checkRef (frameIds r) (.frameParent ui ti fi) fr.parent_frame_id)
              else [])))
  ++ (match r.concurrency_info with
      | none => []
      | some ci =>
          collectIdx 0 ci.flows (fun fi fl =>
            checkRef (nodeIds r) (.flowStart fi) fl.start_point
            ++ checkRef (nodeIds r) (.flowEnd fi) fl.end_point)
          ++ collectIdx 0 ci.sync_points (fun si sp =>
              collectAll sp.waiting_flows (fun fid =>
                if fid ∈ flowIds r then [] else [.syncWaitingFlow si fid])))

/-- The `warnings` component of `ProtocolValidator._validate_references`:
`involved_units` entries naming a non-existent traceable unit (validator.py
lines 419-423); note the membership test has no truthiness guard. -/
def refWarnings (r : Report) : List RefWarning :=
  match r.concurrency_info with
  | none => []
  | some ci =>
      collectIdx 0 ci.flows (fun fi fl =>
        collectAll fl.involved_units (fun uid =>
          if uid ∈ traceableUnitIds r then [] else [.flowInvolvedUnit fi uid]))

/-! ### Check 5 — execution order (`_validate_execution_order`, lines 452-499) -/

/-- The two error templates of `_validate_execution_order`: a duplicate
report carrying the duplicated values (the message renders their set) and a
not-monotonically-increasing report. -/
inductive OrderError
  | duplicate (unitIdx traceIdx : Nat) (dups : List Int)
  | notSorted (unitIdx traceIdx : Nat)
  deriving DecidableEq, Repr

/-- The collected `execution_orders` list of one step-by-step trace: steps,
then variable scopes, then call-stack frames (`is not None` keeps zero). -/
def traceOrders (td : TraceData) : List Int :=
  td.steps.filterMap (fun s => s.execution_order)
    ++ td.variableScopes.filterMap (fun s => s.execution_order)
    ++ td.callStack.filterMap (fun f => f.execution_order)

/-- Embeds `ProtocolValidator._validate_execution_order` (validator.py lines
452-499).  `len(orders) != len(set(orders))` is the dedup-length test;
`orders != sorted(orders)` is rendered with `insertionSort`, which agrees
with Python's stable sort on integer lists. -/
def orderErrors (r : Report) : List OrderError :=
  match r.execution_trace with
  | none => []
  | some et =>
      collectIdx 0 et.traceable_units (fun ui u =>
        collectIdx 0 u.traces (fun ti tr =>
          if tr.format ≠ some "step-by-step" then []
          else
            let orders := traceOrders tr.data
            (if orders.dedup.length ≠ orders.length then
              [.duplicate ui ti (orders.filter (fun o => 1 < orders.count o))]
             else [])
            ++ (if orders ≠ orders.insertionSort (· ≤ ·) then [.notSorted ui ti] else [])))

/-! ### `validate_complete` (lines 95-142) -/

/-- One entry of `ValidationResult.errors`, tagged with the prefix the
source prepends per check (`"Schema validation: "`, `"Timestamp
validation: "`, `"UUID validation: "`, `"Reference integrity: "`,
`"Execution order: "`). -/
inductive VError
  | schemaMsg (msg : String)
  | tsMsg (e : TimestampErr)
  | uuidMsg (e : UuidErr)
  | refMsg (e : RefError)
  | orderMsg (e : OrderError)
  deriving DecidableEq, Repr

/-- One entry of `ValidationResult.warnings`. -/
inductive VWarning
  | skippedAdvanced
  | refWarnMsg (w : RefWarning)
  deriving DecidableEq, Repr

/-- Embeds `ValidationResult` (validator.py lines 28-53). -/
structure ValidationResult where
  is_valid : Bool := true
  errors : List VError := []
  warnings : List VWarning := []
  deriving DecidableEq, Repr

/-- Embeds `ValidationResult.add_error` (lines 36-39). -/
def ValidationResult.addError (res : ValidationResult) (e : VError) : ValidationResult :=
  { res with is_valid := false, errors := res.errors ++ [e] }

/-- Embeds `ValidationResult.add_warning` (lines 41-43). -/
def ValidationResult.addWarning (res : ValidationResult) (w : VWarning) : ValidationResult :=
  { res with warnings := res.warnings ++ [w] }

/-- A `for e in es: result.add_error(...)` loop. -/
def addErrorList (res : ValidationResult) (es : List VError) : ValidationResult :=
  es.foldl ValidationResult.addError res

/-- A `for w in ws: result.add_warning(...)` loop. -/
def addWarningList (res : ValidationResult) (ws : List VWarning) : ValidationResult :=
  ws.foldl ValidationResult.addWarning res

/-- Embeds `ProtocolValidator.validate_complete` (validator.py lines 95-142).
`schemaErrors` is the output of `_validate_schema`, which delegates to the
external `jsonschema` `Draft7Validator` over the on-disk schema file and is
therefore an input of the model. -/
def validateComplete (schemaErrors : List String) (r : Report) : ValidationResult :=
  let res : ValidationResult := {}
  let res := addErrorList res (schemaErrors.map .schemaMsg)
  if ¬ schemaErrors.isEmpty then
    res.addWarning .skippedAdvanced
  else
    let res := addErrorList res ((tsErrors r).map .tsMsg)
    let res := addErrorList res ((uuidErrors r).map .uuidMsg)
    let res := addErrorList res ((refErrors r).map .refMsg)
    let res := addWarningList res ((refWarnings r).map .refWarnMsg)
    addErrorList res ((orderErrors r).map .orderMsg)

end Validator

/-! ## Helper lemmas about the dictionary and loop encodings -/

theorem alLookup_alSet_self {κ β : Type} [DecidableEq κ] (l : List (κ × β)) (k : κ) (v : β) :
    alLookup (alSet l k v) k = some v := by
  induction l with
  | nil => simp [alSet, alLookup]
  | cons hd tl ih =>
      obtain ⟨k', v'⟩ := hd
      by_cases h : k' = k
      · simp [alSet, alLookup, h]
      · simp [alSet, alLookup, h, ih]

theorem alLookup_alSet_ne {κ β : Type} [DecidableEq κ] (l : List (κ × β)) (k k' : κ) (v : β)
    (h : k ≠ k') : alLookup (alSet l k v) k' = alLookup l k' := by
  induction l with
  | nil => simp [alSet, alLookup, h]
  | cons hd tl ih =>
      obtain ⟨k0, v0⟩ := hd
      by_cases h0 : k0 = k
      · subst h0
        simp [alSet, alLookup, h]
      · simp [alSet, alLookup, h0, ih]

theorem alSet_keys {κ β : Type} [DecidableEq κ] (l : List (κ × β)) (k : κ) (v : β)
    (h : alLookup l k = none) :
    (alSet l k v).map Prod.fst = l.map Prod.fst ++ [k] := by
  induction l with
  | nil => simp [alSet]
  | cons hd tl ih =>
      obtain ⟨k0, v0⟩ := hd
      by_cases h0 : k0 = k
      · simp [alLookup, h0] at h
      · simp [alLookup, h0] at h
        simp [alSet, h0, ih h]

namespace Validator

theorem mem_collectIdx {γ δ : Type} {f : Nat → γ → List δ} {b : δ} :
    ∀ (l : List γ) (start j : Nat) (a : γ), l[j]? = some a → b ∈ f (start + j) a →
      b ∈ collectIdx start l f := by
  intro l
  induction l with
  | nil => intro start j a h; simp at h
  | cons hd tl ih =>
      intro start j a h hb
      cases j with
      | zero =>
          simp at h
          subst h
          simp [collectIdx]
          exact Or.inl hb
      | succ j' =>
          simp at h
          simp [collectIdx]
          refine Or.inr (ih (start + 1) j' a h ?_)
          have : start + 1 + j' = start + (j' + 1) := by omega
          rw [this]
          exact hb

theorem mem_collectAll {γ δ : Type} {f : γ → List δ} {b : δ} :
    ∀ (l : List γ) (a : γ), a ∈ l → b ∈ f a → b ∈ collectAll l f := by
  intro l
  induction l with
  | nil => intro a h; simp at h
  | cons hd tl ih =>
      intro a h hb
      rw [List.mem_cons] at h
      simp [collectAll]
      rcases h with h | h
      · exact Or.inl (h ▸ hb)
      · exact Or.inr (ih a h hb)

end Validator

/-! ## Claims about the task queue -/

namespace Queue

theorem getNextTask_none_iff {α : Type} (st : TaskQueue α) :
    st.getNextTask = none ↔
      st.queues .urgent = [] ∧ st.queues .high = [] ∧
        st.queues .normal = [] ∧ st.queues .low = [] := by
  rcases hu : st.queues .urgent with _ | ⟨u0, us⟩ <;>
    rcases hh : st.queues .high with _ | ⟨h0, hs⟩ <;>
      rcases hn : st.queues .normal with _ | ⟨n0, ns⟩ <;>
        rcases hl : st.queues .low with _ | ⟨l0, ls⟩ <;>
          simp [TaskQueue.getNextTask, TaskQueue.getNextTaskAux, priorityDesc, hu, hh, hn, hl]

theorem drainFuel_spec {α : Type} :
    ∀ (n : Nat) (st : TaskQueue α), st.totalQueued ≤ n →
      TaskQueue.drainFuel n st =
        st.queues .urgent ++ st.queues .high ++ st.queues .normal ++ st.queues .low := by
  intro n
  induction n with
  | zero =>
      intro st h
      have h0 : st.totalQueued = 0 := Nat.le_zero.mp h
      unfold TaskQueue.totalQueued at h0
      have h1 : st.queues .low = [] := List.length_eq_zero.mp (by omega)
      have h2 : st.queues .normal = [] := List.length_eq_zero.mp (by omega)
      have h3 : st.queues .high = [] := List.length_eq_zero.mp (by omega)
      have h4 : st.queues .urgent = [] := List.length_eq_zero.mp (by omega)
      simp [TaskQueue.drainFuel, h1, h2, h3, h4]
  | succ n ih =>
      intro st h
      cases hu : st.queues TaskPriority.urgent with
      | cons u0 us =>
          have hstep : TaskQueue.drainFuel (n + 1) st = u0 :: TaskQueue.drainFuel n
              { st with queues := fun q => if q = TaskPriority.urgent then us
                  else st.queues q } := by
            simp [TaskQueue.drainFuel, TaskQueue.getNextTask, TaskQueue.getNextTaskAux,
              priorityDesc, hu]
          rw [hstep, ih]
          · simp [hu]
          · unfold TaskQueue.totalQueued at h ⊢
            simp only [hu, List.length_cons] at h
            simp
            omega
      | nil =>
      cases hh : st.queues TaskPriority.high with
      | cons h0 hs =>
          have hstep : TaskQueue.drainFuel (n + 1) st = h0 :: TaskQueue.drainFuel n
              { st with queues := fun q => if q = TaskPriority.high then hs
                  else st.queues q } := by
            simp [TaskQueue.drainFuel, TaskQueue.getNextTask, TaskQueue.getNextTaskAux,
              priorityDesc, hu, hh]
          rw [hstep, ih]
          · simp [hu, hh]
          · unfold TaskQueue.totalQueued at h ⊢
            simp only [hh, List.length_cons] at h
            simp
            omega
      | nil =>
      cases hn : st.queues TaskPriority.normal with
      | cons n0 ns =>
          have hstep : TaskQueue.drainFuel (n + 1) st = n0 :: TaskQueue.drainFuel n
              { st with queues := fun q => if q = TaskPriority.normal then ns
                  else st.queues q } := by
            simp [TaskQueue.drainFuel, TaskQueue.getNextTask, TaskQueue.getNextTaskAux,
              priorityDesc, hu, hh, hn]
          rw [hstep, ih]
          · simp [hu, hh, hn]
          · unfold TaskQueue.totalQueued at h ⊢
            simp only [hn, List.length_cons] at h
            simp
            omega
      | nil =>
      cases hl : st.queues TaskPriority.low with
      | cons l0 ls =>
          have hstep : TaskQueue.drainFuel (n + 1) st = l0 :: TaskQueue.drainFuel n
              { st with queues := fun q => if q = TaskPriority.low then ls
                  else st.queues q } := by
            simp [TaskQueue.drainFuel, TaskQueue.getNextTask, TaskQueue.getNextTaskAux,
              priorityDesc, hu, hh, hn, hl]
          rw [hstep, ih]
          · simp [hu, hh, hn, hl]
          · unfold TaskQueue.totalQueued at h ⊢
            simp only [hl, List.length_cons] at h
            simp
            omega
      | nil =>
          simp [TaskQueue.drainFuel, TaskQueue.getNextTask, TaskQueue.getNextTaskAux,
            priorityDesc, hu, hh, hn, hl]

/-- C2.  For every state of the scheduler's pending sub-queues:
`_get_next_task` returns nothing exactly when all four sub-queues are empty;
when the sub-queue of priority `p` is non-empty and every strictly
higher-valued priority's sub-queue is empty, it removes and returns the
front element of `p`'s sub-queue, leaving the other sub-queues untouched;
consequently repeated dispatch (`drain`) yields exactly
`URGENT ++ HIGH ++ NORMAL ++ LOW` in order — strict priority between
levels and FIFO within a level; and `submit` (under capacity) appends the
new task id at the tail of the submitted priority's sub-queue, leaving all
other sub-queues unchanged, so equal-priority tasks are dispatched in
submission order.
-/
theorem taskQueue_dispatch_priority_fifo {α : Type} (st : TaskQueue α) :
    (st.getNextTask = none ↔
      st.queues .urgent = [] ∧ st.queues .high = [] ∧
        st.queues .normal = [] ∧ st.queues .low = []) ∧
    (∀ (p : TaskPriority) (taskId : String) (rest : List String),
      st.queues p = taskId :: rest →
      (∀ q : TaskPriority, p.value < q.value → st.queues q = []) →
      ∃ st', st.getNextTask = some (taskId, st') ∧ st'.queues p = rest ∧
        ∀ q : TaskPriority, q ≠ p → st'.queues q = st.queues q) ∧
    (st.drain = st.queues .urgent ++ st.queues .high ++ st.queues .normal ++ st.queues .low) ∧
    (∀ (taskId nm : String) (p : TaskPriority) (tmo : Option Nat) (t : Nat),
      st.totalQueued < st.max_queue_size →
      ∃ st', st.submit taskId nm p tmo t = .ok (taskId, st') ∧
        st'.queues p = st.queues p ++ [taskId] ∧
        (∀ q : TaskPriority, q ≠ p → st'.queues q = st.queues q) ∧
        alLookup st'.tasks taskId = some
          { id := taskId, name := nm, priority := p, state := .pending,
            created_at := t, timeLimit := tmo }) := by
  refine ⟨getNextTask_none_iff st, ?_, drainFuel_spec _ st le_rfl, ?_⟩
  · intro p taskId rest hq hhigher
    refine ⟨{ st with queues := fun q => if q = p then rest else st.queues q }, ?_, ?_, ?_⟩
    · cases p
      · have h3 := hhigher .urgent (by simp [TaskPriority.value])
        have h2 := hhigher .high (by simp [TaskPriority.value])
        have h1 := hhigher .normal (by simp [TaskPriority.value])
        simp [TaskQueue.getNextTask, TaskQueue.getNextTaskAux, priorityDesc, h1, h2, h3, hq]
      · have h3 := hhigher .urgent (by simp [TaskPriority.value])
        have h2 := hhigher .high (by simp [TaskPriority.value])
        simp [TaskQueue.getNextTask, TaskQueue.getNextTaskAux, priorityDesc, h2, h3, hq]
      · have h3 := hhigher .urgent (by simp [TaskPriority.value])
        simp [TaskQueue.getNextTask, TaskQueue.getNextTaskAux, priorityDesc, h3, hq]
      · simp [TaskQueue.getNextTask, TaskQueue.getNextTaskAux, priorityDesc, hq]
    · simp
    · intro q hqne; simp [hqne]
  · intro taskId nm p tmo t hcap
    refine ⟨{ st with
        tasks := alSet st.tasks taskId
          { id := taskId, name := nm, priority := p, state := .pending,
            created_at := t, timeLimit := tmo },
        queues := fun q => if q = p then st.queues q ++ [taskId] else st.queues q },
      ?_, ?_, ?_, ?_⟩
    · simp [TaskQueue.submit, Nat.not_le_of_lt hcap]
    · simp
    · intro q hqne; simp [hqne]
    · exact alLookup_alSet_self _ _ _

/-- Witness for C2 at a concrete queue state: one task at each of NORMAL
and LOW, nothing at HIGH/URGENT; the NORMAL task is popped first and the
drain order is NORMAL then LOW; a submitted NORMAL task goes to the tail of
the NORMAL sub-queue. -/
theorem taskQueue_dispatch_priority_fifo_witness :
    (TaskQueue.getNextTask
        { tasks := [], running_tasks := [],
          queues := fun p => if p = .normal then ["n1"] else if p = .low then ["l1"] else []
          : TaskQueue Nat }).map Prod.fst = some "n1" ∧
    TaskQueue.drain
        { tasks := [], running_tasks := [],
          queues := fun p => if p = .normal then ["n1"] else if p = .low then ["l1"] else []
          : TaskQueue Nat } = ["n1", "l1"] ∧
    (TaskQueue.submit
        { tasks := [], running_tasks := [],
          queues := fun p => if p = .normal then ["n1"] else if p = .low then ["l1"] else []
          : TaskQueue Nat } "t9" "nm" .normal none 0).toOption.map
      (fun x => x.2.queues .normal) = some ["n1", "t9"] := by
  have h := taskQueue_dispatch_priority_fifo
    ({ tasks := [], running_tasks := [],
       queues := fun p => if p = .normal then ["n1"] else if p = .low then ["l1"] else []
       : TaskQueue Nat })
  obtain ⟨-, hpop, hdrain, hsub⟩ := h
  refine ⟨?_, ?_, ?_⟩
  · obtain ⟨st', hst', -, -⟩ := hpop .normal "n1" [] (by simp)
      (by intro q hq; revert hq; cases q <;> simp [TaskPriority.value])
    rw [hst']; rfl
  · rw [hdrain]; rfl
  · obtain ⟨st', hst', hq, -, -⟩ := hsub "t9" "nm" .normal none 0 (by decide)
    rw [hst']
    simp only [Except.toOption, Option.map]
    rw [hq]
    rfl

/-- C3.  For every executed task, the recorded terminal state is determined
by the operation's outcome: a timeout marks the task `timeout` (not
`failed`) with the synthesized timeout error stored in `error`; any other
raised error marks it `failed` with that error stored in `error`; in every
case `completed_at` is stamped (and `started_at` was stamped at dispatch).
`_run_task` is total — no outcome propagates an exception to the submitter
or the dispatch loop.
-/
theorem runTask_records_terminal_state {α : Type} (st : TaskQueue α) (taskId : String)
    (task : QueueTask α) (outcome : OpOutcome α) (t1 t2 : Nat)
    (h : alLookup st.tasks taskId = some task) :
    ∃ task', alLookup ((st.runTask taskId outcome t1 t2).tasks) taskId = some task' ∧
      task'.completed_at = some t2 ∧
      task'.started_at = some t1 ∧
      (outcome = .timedOut →
        task'.state = .timeout ∧ task'.error = some (.timeoutError task.timeLimit)) ∧
      (∀ msg, outcome = .raised msg →
        task'.state = .failed ∧ task'.error = some (.opError msg)) ∧
      (∀ v, outcome = .ok v → task'.state = .completed ∧ task'.result = some v) := by
  unfold TaskQueue.runTask TaskQueue.runTaskStart
  rw [h]
  unfold TaskQueue.runTaskFinish
  rw [alLookup_alSet_self]
  refine ⟨_, alLookup_alSet_self _ _ _, ?_, ?_, ?_, ?_, ?_⟩
  · rfl
  · cases outcome <;> rfl
  · intro ho; subst ho; exact ⟨rfl, rfl⟩
  · intro msg ho; subst ho; exact ⟨rfl, rfl⟩
  · intro v ho; subst ho; exact ⟨rfl, rfl⟩

/-- Witness for C3: a one-task queue whose operation times out is recorded
`timeout` with the synthesized timeout error and both timestamps. -/
theorem runTask_records_terminal_state_witness :
    (alLookup ((TaskQueue.runTask
        { tasks := [("t", { id := "t", name := "T", priority := .normal, state := .pending,
                            created_at := 0, timeLimit := some 7 })],
          queues := fun _ => [], running_tasks := [] : TaskQueue Nat }
        "t" .timedOut 1 2).tasks) "t").map
      (fun tk => (tk.state, tk.error, tk.started_at, tk.completed_at)) =
    some (.timeout, some (.timeoutError (some 7)), some 1, some 2) := by
  obtain ⟨task', hfind, hc, hs, htmo, -, -⟩ :=
    runTask_records_terminal_state
      ({ tasks := [("t", { id := "t", name := "T", priority := .normal,
                           state := .pending, created_at := 0, timeLimit := some 7 })],
         queues := fun _ => [], running_tasks := [] : TaskQueue Nat })
      "t"
      ({ id := "t", name := "T", priority := .normal, state := .pending,
         created_at := 0, timeLimit := some 7 })
      .timedOut 1 2 (by rfl)
  obtain ⟨h1, h2⟩ := htmo rfl
  rw [hfind]
  simp [h1, h2, hc, hs]

/-- C9.  `cancel` returns `false` and leaves the state unchanged when the
task id is unknown or the task is already terminal (completed, failed,
cancelled or timed out); for a still-pending task it returns `true`,
removes the id from its priority sub-queue (other sub-queues untouched),
records state `cancelled` with a completion timestamp, and preserves
`result` and `started_at` — the operation is never executed.
-/
theorem cancel_pending_or_terminal {α : Type} (st : TaskQueue α) (taskId : String) (t : Nat) :
    (alLookup st.tasks taskId = none → st.cancel taskId t = (false, st)) ∧
    (∀ task : QueueTask α, alLookup st.tasks taskId = some task →
      (task.state = .completed ∨ task.state = .failed ∨
        task.state = .cancelled ∨ task.state = .timeout) →
      st.cancel taskId t = (false, st)) ∧
    (∀ task : QueueTask α, alLookup st.tasks taskId = some task →
      task.state = .pending →
      ∃ st' task', st.cancel taskId t = (true, st') ∧
        alLookup st'.tasks taskId = some task' ∧
        task'.state = .cancelled ∧
        task'.completed_at = some t ∧
        task'.started_at = task.started_at ∧
        task'.result = task.result ∧
        st'.queues task.priority = (st.queues task.priority).erase taskId ∧
        (∀ q : TaskPriority, q ≠ task.priority → st'.queues q = st.queues q)) := by
  refine ⟨?_, ?_, ?_⟩
  · intro h
    simp [TaskQueue.cancel, h]
  · intro task hfind hterm
    have hcond : ¬ (task.state = .pending ∨ task.state = .running) := by
      rcases hterm with h | h | h | h <;> simp [h]
    simp [TaskQueue.cancel, hfind, hcond]
  · intro task hfind hpend
    refine ⟨{ st with
        tasks := alSet st.tasks taskId { task with state := .cancelled, completed_at := some t },
        queues := fun p => if p = task.priority then (st.queues task.priority).erase taskId
          else st.queues p },
      { task with state := .cancelled, completed_at := some t },
      ?_, alLookup_alSet_self _ _ _, rfl, rfl, rfl, rfl, ?_, ?_⟩
    · simp [TaskQueue.cancel, hfind, hpend]
    · simp
    · intro q hqne
      simp [hqne]

/-- Witness for C9: cancelling the sole pending task of a one-task queue
returns `true`, leaves it `cancelled` at time 3 with no recorded start or
result, and empties its NORMAL sub-queue; cancelling an unknown id returns
`false`. -/
theorem cancel_pending_or_terminal_witness :
    ((TaskQueue.cancel
        { tasks := [("t", { id := "t", name := "T", priority := .normal, state := .pending,
                            created_at := 0 })],
          queues := fun p => if p = .normal then ["t"] else [],
          running_tasks := [] : TaskQueue Nat } "t" 3).1 = true ∧
      (TaskQueue.cancel
        { tasks := [("t", { id := "t", name := "T", priority := .normal, state := .pending,
                            created_at := 0 })],
          queues := fun p => if p = .normal then ["t"] else [],
          running_tasks := [] : TaskQueue Nat } "t" 3).2.queues .normal = [] ∧
      (alLookup (TaskQueue.cancel
        { tasks := [("t", { id := "t", name := "T", priority := .normal, state := .pending,
                            created_at := 0 })],
          queues := fun p => if p = .normal then ["t"] else [],
          running_tasks := [] : TaskQueue Nat } "t" 3).2.tasks "t").map
        (fun tk => (tk.state, tk.completed_at, tk.started_at, tk.result)) =
        some (.cancelled, some 3, none, none)) ∧
    (TaskQueue.cancel
        { tasks := [("t", { id := "t", name := "T", priority := .normal, state := .pending,
                            created_at := 0 })],
          queues := fun p => if p = .normal then ["t"] else [],
          running_tasks := [] : TaskQueue Nat } "missing" 3).1 = false := by
  obtain ⟨hnone, -, hpend⟩ := cancel_pending_or_terminal
    ({ tasks := [("t", { id := "t", name := "T", priority := .normal, state := .pending,
                         created_at := 0 })],
       queues := fun p => if p = .normal then ["t"] else [],
       running_tasks := [] : TaskQueue Nat })
    "t" 3
  obtain ⟨hnone2, -, -⟩ := cancel_pending_or_terminal
    ({ tasks := [("t", { id := "t", name := "T", priority := .normal, state := .pending,
                         created_at := 0 })],
       queues := fun p => if p = .normal then ["t"] else [],
       running_tasks := [] : TaskQueue Nat })
    "missing" 3
  obtain ⟨st', task', hc, hfind, hstate, hcomp, hstart, hres, hqueue, -⟩ :=
    hpend { id := "t", name := "T", priority := .normal, state := .pending, created_at := 0 }
      (by rfl) rfl
  refine ⟨⟨?_, ?_, ?_⟩, ?_⟩
  · rw [hc]
  · rw [hc]; simpa using hqueue
  · rw [hc]; rw [hfind]; simp [hstate, hcomp]
    exact ⟨hstart, hres⟩
  · rw [hnone2 (by rfl)]

/-- C10.  Cancelling a *running* task marks it `cancelled`, but the
completion handler of `_run_task` later overwrites that state
unconditionally: if the operation returns normally the task ends
`completed` with its result stored and `completed_at` restamped; the
`cancelled` mark survives as the terminal state only when the operation
itself ends in an `asyncio.CancelledError`.
-/
theorem cancel_running_overwritten_on_completion {α : Type} (st : TaskQueue α)
    (taskId : String) (task : QueueTask α) (t1 t2 : Nat)
    (hfind : alLookup st.tasks taskId = some task)
    (hrun : task.state = .running) :
    ∃ st1 task1, st.cancel taskId t1 = (true, st1) ∧
      alLookup st1.tasks taskId = some task1 ∧
      task1.state = .cancelled ∧ task1.completed_at = some t1 ∧
      (∀ v : α, ∃ task2,
        alLookup ((st1.runTaskFinish taskId (.ok v) t2).tasks) taskId = some task2 ∧
        task2.state = .completed ∧ task2.result = some v ∧ task2.completed_at = some t2) ∧
      (∃ task3,
        alLookup ((st1.runTaskFinish taskId .cancelledError t2).tasks) taskId = some task3 ∧
        task3.state = .cancelled ∧ task3.completed_at = some t2) := by
  have hnotpend : task.state ≠ TaskState.pending := by
    rw [hrun]; intro hcontra; cases hcontra
  refine ⟨{ st with
      tasks := alSet st.tasks taskId { task with state := .cancelled, completed_at := some t1 } },
    { task with state := .cancelled, completed_at := some t1 },
    ?_, alLookup_alSet_self _ _ _, rfl, rfl, ?_, ?_⟩
  · simp [TaskQueue.cancel, hfind, hrun, hnotpend]
  · intro v
    refine ⟨{ task with state := .completed, result := some v, completed_at := some t2 },
      ?_, rfl, rfl, rfl⟩
    unfold TaskQueue.runTaskFinish
    rw [alLookup_alSet_self]
    exact alLookup_alSet_self _ _ _
  · refine ⟨{ task with state := .cancelled, completed_at := some t2 }, ?_, rfl, rfl⟩
    unfold TaskQueue.runTaskFinish
    rw [alLookup_alSet_self]
    exact alLookup_alSet_self _ _ _

/-- Witness for C10: a running task cancelled at time 5 reads `cancelled`,
but when its operation then returns 42 at time 6 it ends `completed` with
result 42 and `completed_at` 6, not `cancelled`. -/
theorem cancel_running_overwritten_on_completion_witness :
    (TaskQueue.cancel
        { tasks := [("t", { id := "t", name := "T", priority := .normal, state := .running,
                            created_at := 0, started_at := some 1 })],
          queues := fun _ => [], running_tasks := ["t"] : TaskQueue Nat } "t" 5).1 = true ∧
    (alLookup (TaskQueue.cancel
        { tasks := [("t", { id := "t", name := "T", priority := .normal, state := .running,
                            created_at := 0, started_at := some 1 })],
          queues := fun _ => [], running_tasks := ["t"] : TaskQueue Nat } "t" 5).2.tasks
        "t").map (fun tk => (tk.state, tk.completed_at)) = some (.cancelled, some 5) ∧
    (alLookup ((TaskQueue.cancel
        { tasks := [("t", { id := "t", name := "T", priority := .normal, state := .running,
                            created_at := 0, started_at := some 1 })],
          queues := fun _ => [], running_tasks := ["t"] : TaskQueue Nat }
        "t" 5).2.runTaskFinish "t" (.ok 42) 6).tasks "t").map
      (fun tk => (tk.state, tk.result, tk.completed_at)) =
      some (.completed, some 42, some 6) := by
  obtain ⟨st1, task1, hc, hfind, hstate, hcomp, hok, -⟩ :=
    cancel_running_overwritten_on_completion
      ({ tasks := [("t", { id := "t", name := "T", priority := .normal, state := .running,
                           created_at := 0, started_at := some 1 })],
         queues := fun _ => [], running_tasks := ["t"] : TaskQueue Nat })
      "t"
      ({ id := "t", name := "T", priority := .normal, state := .running,
         created_at := 0, started_at := some 1 })
      5 6 (by rfl) rfl
  obtain ⟨task2, hfind2, hst2, hres2, hcomp2⟩ := hok 42
  refine ⟨?_, ?_, ?_⟩
  · rw [hc]
  · rw [hc]; rw [hfind]; simp [hstate, hcomp]
  · rw [hc]; rw [hfind2]; simp [hst2, hres2, hcomp2]

end Queue

/-! ## Claims about the analysis engine -/

namespace Engine

theorem runStage_status_of_success {o : StageOutcome} (s : AnalysisStage) (t1 t2 : Nat)
    (h : o.isSuccess = true) : (runStage s o t1 t2).status = .completed := by
  cases o <;> simp_all [StageOutcome.isSuccess, runStage]

theorem runStage_status_of_failure {o : StageOutcome} (s : AnalysisStage) (t1 t2 : Nat)
    (h : o.isSuccess = false) : (runStage s o t1 t2).status = .failed := by
  cases o <;> simp_all [StageOutcome.isSuccess, runStage]

theorem runStages_success_spec (outcomes : AnalysisStage → StageOutcome) (t : Nat) :
    ∀ (stages : List AnalysisStage) (job : AnalysisJob),
      (∀ s ∈ stages, (outcomes s).isSuccess = true) →
      (∀ s ∈ stages, alLookup job.stage_results s = none) →
      stages.Nodup →
      (runStages outcomes t stages job).status = .completed ∧
      (runStages outcomes t stages job).stage_results.map Prod.fst
        = job.stage_results.map Prod.fst ++ stages ∧
      (runStages outcomes t stages job).final_result
        = some (mergeResults ((runStages outcomes t stages job).stage_results)) := by
  intro stages
  induction stages with
  | nil =>
      intro job _ _ _
      exact ⟨rfl, by simp [runStages], rfl⟩
  | cons s rest ih =>
      intro job hsucc hnone hnodup
      have hs : (outcomes s).isSuccess = true := hsucc s (by simp)
      have hstat := runStage_status_of_success s t t hs
      have hstep : runStages outcomes t (s :: rest) job = runStages outcomes t rest
          { job with
              current_stage := some s,
              stage_results := alSet job.stage_results s (runStage s (outcomes s) t t) } := by
        simp [runStages, hstat]
      rw [hstep]
      have hmemnone := hnone s (by simp)
      obtain ⟨ih1, ih2, ih3⟩ := ih
        { job with
            current_stage := some s,
            stage_results := alSet job.stage_results s (runStage s (outcomes s) t t) }
        (fun s' hs' => hsucc s' (by simp [hs']))
        (by
          intro s' hs'
          have hne : s ≠ s' := by
            intro hcontra
            exact (List.nodup_cons.mp hnodup).1 (hcontra ▸ hs')
          simp only [alLookup_alSet_ne _ _ _ _ hne]
          exact hnone s' (by simp [hs']))
        (List.nodup_cons.mp hnodup).2
      refine ⟨ih1, ?_, ih3⟩
      rw [ih2]
      simp only [alSet_keys _ _ _ hmemnone]
      simp

theorem runStages_fail_spec (outcomes : AnalysisStage → StageOutcome) (t : Nat) :
    ∀ (stages : List AnalysisStage) (job : AnalysisJob),
      (∃ s ∈ stages, (outcomes s).isSuccess = false) →
      (∀ s ∈ stages, alLookup job.stage_results s = none) →
      stages.Nodup →
      (runStages outcomes t stages job).status = .failed ∧
      (runStages outcomes t stages job).stage_results.map Prod.fst
        = job.stage_results.map Prod.fst ++
            stages.take (stages.findIdx (fun s => !(outcomes s).isSuccess) + 1) ∧
      (runStages outcomes t stages job).final_result = job.final_result := by
  intro stages
  induction stages with
  | nil =>
      intro job hex _ _
      simp at hex
  | cons s rest ih =>
      intro job hex hnone hnodup
      have hmemnone := hnone s (by simp)
      by_cases hs : (outcomes s).isSuccess = true
      · -- the head stage succeeds: the first failure is further down
        have hstat := runStage_status_of_success s t t hs
        have hstep : runStages outcomes t (s :: rest) job = runStages outcomes t rest
            { job with
                current_stage := some s,
                stage_results := alSet job.stage_results s (runStage s (outcomes s) t t) } := by
          simp [runStages, hstat]
        rw [hstep]
        have hex' : ∃ s' ∈ rest, (outcomes s').isSuccess = false := by
          obtain ⟨s', hmem, hfal⟩ := hex
          rcases List.mem_cons.mp hmem with h | h
          · rw [h] at hfal
            rw [hfal] at hs
            cases hs
          · exact ⟨s', h, hfal⟩
        obtain ⟨ih1, ih2, ih3⟩ := ih
          { job with
              current_stage := some s,
              stage_results := alSet job.stage_results s (runStage s (outcomes s) t t) }
          hex'
          (by
            intro s' hs'
            have hne : s ≠ s' := by
              intro hcontra
              exact (List.nodup_cons.mp hnodup).1 (hcontra ▸ hs')
            simp only [alLookup_alSet_ne _ _ _ _ hne]
            exact hnone s' (by simp [hs']))
          (List.nodup_cons.mp hnodup).2
        refine ⟨ih1, ?_, ih3⟩
        rw [ih2]
        simp only [alSet_keys _ _ _ hmemnone]
        rw [List.findIdx_cons]
        simp only [hs, Bool.not_true, cond_false]
        rw [List.take_succ_cons]
        simp
      · -- the head stage fails: the loop stops here
        have hsf : (outcomes s).isSuccess = false := by
          cases hb : (outcomes s).isSuccess
          · rfl
          · exact absurd hb hs
        have hstat := runStage_status_of_failure s t t hsf
        have hstep : runStages outcomes t (s :: rest) job =
            { job with
                current_stage := some s,
                stage_results := alSet job.stage_results s (runStage s (outcomes s) t t),
                status := .failed,
                completed_at := some t } := by
          simp [runStages, hstat]
        rw [hstep]
        refine ⟨rfl, ?_, rfl⟩
        simp only [alSet_keys _ _ _ hmemnone]
        rw [List.findIdx_cons]
        simp [hsf]

/-- C1.  Running a pending job attempts the five stages strictly in
`STAGE_ORDER`: the recorded stage identifiers are exactly the prefix of
`STAGE_ORDER` up to and including the first failed stage (the whole order
when no stage fails), so no `StageResult` is recorded for any stage after
the first failure; the job ends `failed` in that case with no final result,
and it ends `completed` — with `final_result` set to the merged payloads —
exactly when all five stages succeed.
-/
theorem runJob_five_stage_pipeline (jobs : List (String × AnalysisJob)) (jobId : String)
    (job : AnalysisJob) (outcomes : AnalysisStage → StageOutcome) (t : Nat)
    (hfind : alLookup jobs jobId = some job)
    (hpend : job.status = .pending)
    (hempty : job.stage_results = [])
    (hfin : job.final_result = none) :
    ∃ job', runJob jobs jobId outcomes t = (.ok job', alSet jobs jobId job') ∧
      (job'.status = .completed ∨ job'.status = .failed) ∧
      (job'.status = .completed ↔ ∀ s ∈ STAGE_ORDER, (outcomes s).isSuccess = true) ∧
      job'.stage_results.map Prod.fst =
        STAGE_ORDER.take (STAGE_ORDER.findIdx (fun s => !(outcomes s).isSuccess) + 1) ∧
      (job'.status = .failed → job'.final_result = none) ∧
      (job'.status = .completed →
        job'.final_result = some (mergeResults job'.stage_results)) := by
  have heq : runJob jobs jobId outcomes t =
      (.ok (runStages outcomes t STAGE_ORDER { job with status := .running, started_at := some t }),
        alSet jobs jobId
          (runStages outcomes t STAGE_ORDER { job with status := .running, started_at := some t })) := by
    simp [runJob, hfind, hpend]
  have hnone : ∀ s ∈ STAGE_ORDER,
      alLookup ({ job with
                    status := AnalysisStatus.running,
                    started_at := some t } : AnalysisJob).stage_results s = none := by
    intro s _
    simp [hempty, alLookup]
  have hnodup : STAGE_ORDER.Nodup := by decide
  refine ⟨_, heq, ?_, ?_, ?_, ?_, ?_⟩
  all_goals
    by_cases hall : ∀ s ∈ STAGE_ORDER, (outcomes s).isSuccess = true
  · exact Or.inl (runStages_success_spec outcomes t STAGE_ORDER _ hall hnone hnodup).1
  · obtain ⟨s0, hmem, hfal⟩ : ∃ s ∈ STAGE_ORDER, (outcomes s).isSuccess = false := by
      push_neg at hall
      obtain ⟨s0, hmem, hne⟩ := hall
      exact ⟨s0, hmem, by simpa using hne⟩
    exact Or.inr (runStages_fail_spec outcomes t STAGE_ORDER _ ⟨s0, hmem, hfal⟩ hnone hnodup).1
  · exact ⟨fun _ => hall,
      fun _ => (runStages_success_spec outcomes t STAGE_ORDER _ hall hnone hnodup).1⟩
  · obtain ⟨s0, hmem, hfal⟩ : ∃ s ∈ STAGE_ORDER, (outcomes s).isSuccess = false := by
      push_neg at hall
      obtain ⟨s0, hmem, hne⟩ := hall
      exact ⟨s0, hmem, by simpa using hne⟩
    have hstat := (runStages_fail_spec outcomes t STAGE_ORDER _ ⟨s0, hmem, hfal⟩ hnone hnodup).1
    constructor
    · intro hcontra
      rw [hstat] at hcontra
      cases hcontra
    · intro hcontra
      exact absurd (hcontra s0 hmem) (by simp [hfal])
  · have hkeys := (runStages_success_spec outcomes t STAGE_ORDER _ hall hnone hnodup).2.1
    rw [hkeys]
    have hidx : STAGE_ORDER.findIdx (fun s => !(outcomes s).isSuccess) = STAGE_ORDER.length :=
      List.findIdx_eq_length.mpr (fun s hs => by simp [hall s hs])
    rw [hidx, List.take_of_length_le (by simp)]
    simp [hempty]
  · obtain ⟨s0, hmem, hfal⟩ : ∃ s ∈ STAGE_ORDER, (outcomes s).isSuccess = false := by
      push_neg at hall
      obtain ⟨s0, hmem, hne⟩ := hall
      exact ⟨s0, hmem, by simpa using hne⟩
    have hkeys := (runStages_fail_spec outcomes t STAGE_ORDER _ ⟨s0, hmem, hfal⟩ hnone hnodup).2.1
    rw [hkeys]
    simp [hempty]
  · intro hcontra
    have hstat := (runStages_success_spec outcomes t STAGE_ORDER _ hall hnone hnodup).1
    rw [hstat] at hcontra
    cases hcontra
  · obtain ⟨s0, hmem, hfal⟩ : ∃ s ∈ STAGE_ORDER, (outcomes s).isSuccess = false := by
      push_neg at hall
      obtain ⟨s0, hmem, hne⟩ := hall
      exact ⟨s0, hmem, by simpa using hne⟩
    intro _
    have hres := (runStages_fail_spec outcomes t STAGE_ORDER _ ⟨s0, hmem, hfal⟩ hnone hnodup).2.2
    rw [hres]
    exact hfin
  · intro _
    exact (runStages_success_spec outcomes t STAGE_ORDER _ hall hnone hnodup).2.2
  · intro hcontra
    obtain ⟨s0, hmem, hfal⟩ : ∃ s ∈ STAGE_ORDER, (outcomes s).isSuccess = false := by
      push_neg at hall
      obtain ⟨s0, hmem, hne⟩ := hall
      exact ⟨s0, hmem, by simpa using hne⟩
    have hstat := (runStages_fail_spec outcomes t STAGE_ORDER _ ⟨s0, hmem, hfal⟩ hnone hnodup).1
    rw [hstat] at hcontra
    cases hcontra

/-- Witness for C1: a pending job whose five stages all succeed (with empty
payloads) ends `completed` with exactly the five stage identifiers recorded
in order. -/
theorem runJob_five_stage_pipeline_witness :
    ((runJob [("j", sampleJob "j" .pending)] "j"
        (fun _ => .success []) 7).1.toOption.map
      (fun j => (j.status, j.stage_results.map Prod.fst))) =
      some (.completed, STAGE_ORDER) := by
  obtain ⟨job', heq, -, hiff, hkeys, -, -⟩ := runJob_five_stage_pipeline
    [("j", sampleJob "j" .pending)] "j" (sampleJob "j" .pending)
    (fun _ => .success []) 7 (by rfl) rfl rfl rfl
  have hst : job'.status = .completed := hiff.mpr (fun s _ => rfl)
  rw [heq]
  simp only [Except.toOption, Option.map, hst]
  rw [hkeys]
  rfl

/-- Counterexample for C4 as stated: a job whose status is the terminal
`FAILED` is *accepted* by a second `run_job` call (no error is raised — the
guard checks only `RUNNING` and `COMPLETED`), so "a second call on any
terminal job fails loudly" is false. -/
theorem runJob_failed_job_rerun_counterexample :
    (runJob [("j", sampleJob "j" .failed)] "j"
        (fun _ => .exn "boom") 1).1.isOk = true := by rfl

/-- C4 (amended).  `run_job` fails loudly — with the original state
untouched — exactly for an unknown job id and for a job whose status is
`RUNNING` or `COMPLETED`; a job in the terminal `FAILED` status is accepted
and re-run.
-/
theorem runJob_rejects_unknown_running_completed (jobs : List (String × AnalysisJob))
    (jobId : String) (outcomes : AnalysisStage → StageOutcome) (t : Nat) :
    (alLookup jobs jobId = none →
      runJob jobs jobId outcomes t = (.error (.jobNotFound jobId), jobs)) ∧
    (∀ job, alLookup jobs jobId = some job →
      job.status = .running ∨ job.status = .completed →
      runJob jobs jobId outcomes t = (.error (.jobAlready job.status jobId), jobs)) ∧
    (∀ job, alLookup jobs jobId = some job → job.status = .failed →
      (runJob jobs jobId outcomes t).1.isOk = true) := by
  refine ⟨?_, ?_, ?_⟩
  · intro h
    simp [runJob, h]
  · intro job h hstat
    simp only [runJob, h]
    rw [if_pos hstat]
  · intro job h hstat
    simp [runJob, h, hstat, Except.isOk, Except.toBool]

/-- Witness for C4 (amended): an unknown id and a completed job are
rejected with the state untouched; a failed job is accepted. -/
theorem runJob_rejects_unknown_running_completed_witness :
    runJob [] "ghost" (fun _ => .success []) 0 = (.error (.jobNotFound "ghost"), []) ∧
    runJob [("c", sampleJob "c" .completed)] "c" (fun _ => .success []) 0 =
      (.error (.jobAlready .completed "c"), [("c", sampleJob "c" .completed)]) ∧
    (runJob [("f", sampleJob "f" .failed)] "f" (fun _ => .success []) 0).1.isOk = true := by
  refine ⟨?_, ?_, ?_⟩
  · exact (runJob_rejects_unknown_running_completed [] "ghost" (fun _ => .success []) 0).1
      (by rfl)
  · exact (runJob_rejects_unknown_running_completed _ "c" (fun _ => .success []) 0).2.1
      (sampleJob "c" .completed) (by rfl) (Or.inr rfl)
  · exact (runJob_rejects_unknown_running_completed _ "f" (fun _ => .success []) 0).2.2
      (sampleJob "f" .failed) (by rfl) rfl

/-- C8 (code evaluation).  Contrary to the claim, the stage inputs for the
`execution_inference` and `concurrency_detection` stages contain *only* the
two identity fields (`project_path`, `project_name`): the
`_prepare_stage_input` dispatch has no branch for them (the source trails
off in a placeholder comment), so no predecessor payload fragment is ever
included for those stages.
-/
theorem prepareStageInput_last_two_stages_identity_only
    (job : AnalysisJob) (fileTree nowIso modelName : String) :
    prepareStageInput job .execution_inference fileTree nowIso modelName =
      [("project_path", job.project_path), ("project_name", job.project_name)] ∧
    prepareStageInput job .concurrency_detection fileTree nowIso modelName =
      [("project_path", job.project_path), ("project_name", job.project_name)] :=
  ⟨rfl, rfl⟩

end Engine

/-! ## Claims about the protocol validator -/

namespace Validator

theorem addErrorList_spec :
    ∀ (es : List VError) (res : ValidationResult),
      (addErrorList res es).errors = res.errors ++ es ∧
      (addErrorList res es).warnings = res.warnings ∧
      (addErrorList res es).is_valid = (res.is_valid && es.isEmpty) := by
  intro es
  induction es with
  | nil => intro res; simp [addErrorList]
  | cons e rest ih =>
      intro res
      have hfold : addErrorList res (e :: rest) = addErrorList (res.addError e) rest := rfl
      obtain ⟨h1, h2, h3⟩ := ih (res.addError e)
      rw [hfold]
      refine ⟨?_, ?_, ?_⟩
      · rw [h1]; simp [ValidationResult.addError]
      · rw [h2]; simp [ValidationResult.addError]
      · rw [h3]; simp [ValidationResult.addError]

theorem addWarningList_spec :
    ∀ (ws : List VWarning) (res : ValidationResult),
      (addWarningList res ws).errors = res.errors ∧
      (addWarningList res ws).warnings = res.warnings ++ ws ∧
      (addWarningList res ws).is_valid = res.is_valid := by
  intro ws
  induction ws with
  | nil => intro res; simp [addWarningList]
  | cons w rest ih =>
      intro res
      have hfold : addWarningList res (w :: rest) = addWarningList (res.addWarning w) rest := rfl
      obtain ⟨h1, h2, h3⟩ := ih (res.addWarning w)
      rw [hfold]
      refine ⟨?_, ?_, ?_⟩
      · rw [h1]; simp [ValidationResult.addWarning]
      · rw [h2]; simp [ValidationResult.addWarning]
      · rw [h3]; simp [ValidationResult.addWarning]

theorem validateComplete_ok_spec (r : Report) :
    (validateComplete [] r).errors =
      (tsErrors r).map .tsMsg ++ (uuidErrors r).map .uuidMsg ++
        (refErrors r).map .refMsg ++ (orderErrors r).map .orderMsg ∧
    (validateComplete [] r).warnings = (refWarnings r).map .refWarnMsg ∧
    ((validateComplete [] r).is_valid = true ↔
      tsErrors r = [] ∧ uuidErrors r = [] ∧ refErrors r = [] ∧ orderErrors r = []) := by
  have hunfold : validateComplete [] r =
      addErrorList
        (addWarningList
          (addErrorList
            (addErrorList
              (addErrorList (addErrorList {} ([].map .schemaMsg)) ((tsErrors r).map .tsMsg))
              ((uuidErrors r).map .uuidMsg))
            ((refErrors r).map .refMsg))
          ((refWarnings r).map .refWarnMsg))
        ((orderErrors r).map .orderMsg) := by
    simp [validateComplete]
  obtain ⟨e5, w5, v5⟩ := addErrorList_spec ((orderErrors r).map .orderMsg)
    (addWarningList
      (addErrorList
        (addErrorList
          (addErrorList (addErrorList {} ([].map .schemaMsg)) ((tsErrors r).map .tsMsg))
          ((uuidErrors r).map .uuidMsg))
        ((refErrors r).map .refMsg))
      ((refWarnings r).map .refWarnMsg))
  obtain ⟨e4, w4, v4⟩ := addWarningList_spec ((refWarnings r).map .refWarnMsg)
    (addErrorList
      (addErrorList
        (addErrorList (addErrorList {} ([].map .schemaMsg)) ((tsErrors r).map .tsMsg))
        ((uuidErrors r).map .uuidMsg))
      ((refErrors r).map .refMsg))
  obtain ⟨e3, w3, v3⟩ := addErrorList_spec ((refErrors r).map .refMsg)
    (addErrorList
      (addErrorList (addErrorList {} ([].map .schemaMsg)) ((tsErrors r).map .tsMsg))
      ((uuidErrors r).map .uuidMsg))
  obtain ⟨e2, w2, v2⟩ := addErrorList_spec ((uuidErrors r).map .uuidMsg)
    (addErrorList (addErrorList {} ([].map .schemaMsg)) ((tsErrors r).map .tsMsg))
  obtain ⟨e1, w1, v1⟩ := addErrorList_spec ((tsErrors r).map .tsMsg)
    (addErrorList {} ([].map .schemaMsg))
  rw [hunfold]
  refine ⟨?_, ?_, ?_⟩
  · rw [e5, e4, e3, e2, e1]
    simp [addErrorList]
  · rw [w5, w4, w3, w2, w1]
    simp [addErrorList, addWarningList]
  · rw [v5, v4, v3, v2, v1]
    simp [addErrorList]
    tauto

theorem validateComplete_fail_spec (se : List String) (r : Report) (h : se ≠ []) :
    (validateComplete se r).is_valid = false ∧
    (validateComplete se r).errors = se.map .schemaMsg ∧
    (validateComplete se r).warnings = [.skippedAdvanced] := by
  have hne : ¬ se.isEmpty := by
    cases se with
    | nil => exact absurd rfl h
    | cons a l => simp [List.isEmpty]
  have hunfold : validateComplete se r =
      (addErrorList {} (se.map .schemaMsg)).addWarning .skippedAdvanced := by
    simp [validateComplete, hne]
  obtain ⟨e1, w1, v1⟩ := addErrorList_spec (se.map .schemaMsg) {}
  rw [hunfold]
  refine ⟨?_, ?_, ?_⟩
  · simp [ValidationResult.addWarning, v1]
    cases se with
    | nil => exact absurd rfl h
    | cons a l => simp [List.isEmpty]
  · simp [ValidationResult.addWarning, e1]
  · simp [ValidationResult.addWarning, w1]

/-- C7.  If the schema check produces any error, `validate_complete` returns
only the schema errors plus the single "advanced checks skipped" warning and
is invalid — checks 2-5 are not run; if the schema check passes, the error
list is exactly the concatenation of the timestamp, UUID, reference and
execution-order check errors (the reference warnings are the only
warnings), and `is_valid` holds exactly when none of those checks produced
an error.
-/
theorem validateComplete_schema_gate (se : List String) (r : Report) :
    (se ≠ [] →
      (validateComplete se r).is_valid = false ∧
      (validateComplete se r).errors = se.map .schemaMsg ∧
      (validateComplete se r).warnings = [.skippedAdvanced]) ∧
    (se = [] →
      (validateComplete se r).errors =
        (tsErrors r).map .tsMsg ++ (uuidErrors r).map .uuidMsg ++
          (refErrors r).map .refMsg ++ (orderErrors r).map .orderMsg ∧
      (validateComplete se r).warnings = (refWarnings r).map .refWarnMsg ∧
      ((validateComplete se r).is_valid = true ↔
        tsErrors r = [] ∧ uuidErrors r = [] ∧ refErrors r = [] ∧ orderErrors r = [])) := by
  constructor
  · intro h
    exact validateComplete_fail_spec se r h
  · intro h
    subst h
    exact validateComplete_ok_spec r

/-- Witness for C7: on the empty report, a failing schema check yields
exactly the schema error, the skipped-advanced warning and invalidity,
while a passing schema check yields a valid result with no errors. -/
theorem validateComplete_schema_gate_witness :
    (validateComplete ["bad"] {}).is_valid = false ∧
    (validateComplete ["bad"] {}).errors = [.schemaMsg "bad"] ∧
    (validateComplete ["bad"] {}).warnings = [.skippedAdvanced] ∧
    (validateComplete [] {}).is_valid = true := by
  obtain ⟨hfail, -⟩ := validateComplete_schema_gate ["bad"] {}
  obtain ⟨h1, h2, h3⟩ := hfail (by simp)
  obtain ⟨-, hok⟩ := validateComplete_schema_gate [] ({} : Report)
  obtain ⟨-, -, hiff⟩ := hok rfl
  exact ⟨h1, h2, h3, hiff.mpr ⟨rfl, rfl, rfl, rfl⟩⟩

theorem nodup_iff_dedup_length (l : List Int) :
    l.Nodup ↔ l.dedup.length = l.length := by
  constructor
  · intro h
    rw [List.dedup_eq_self.mpr h]
  · intro h
    have hd : l.dedup = l := (List.dedup_sublist l).eq_of_length h
    rw [← hd]
    exact l.nodup_dedup

theorem sorted_iff_insertionSort_eq (l : List Int) :
    l.Sorted (· ≤ ·) ↔ l.insertionSort (· ≤ ·) = l := by
  constructor
  · exact List.Sorted.insertionSort_eq
  · intro h
    rw [← h]
    exact List.sorted_insertionSort _ l

/-- C5.  Every dangling foreign-key reference — edge `source`/`target`,
node `parent`, step `scope_id`, scope `parent_scope_id`, frame
`local_scope_id`/`parent_frame_id`, flow `start_point`/`end_point`,
sync-point `waiting_flows` entry, launch-button `node_id` — produces a hard
error carrying the offending entity's indices and the missing id, *except*
a flow's `involved_units` entry naming a non-existent traceable unit, which
produces a warning instead (the hard-error type has no involved-units
case); and any hard reference error makes `validate_complete` (with the
schema check passing) invalid — in particular a dangling edge `target`.
-/
theorem validator_dangling_references (r : Report) :
    (∀ bm i btn nid, r.behavior_metadata = some bm → bm.launch_buttons[i]? = some btn →
      pyTruthy btn.node_id = some nid → nid ∉ nodeIds r →
      RefError.launchButtonNode i nid ∈ refErrors r) ∧
    (∀ cs i e sid, r.code_structure = some cs → cs.edges[i]? = some e →
      pyTruthy e.source = some sid → sid ∉ nodeIds r →
      RefError.edgeSource i sid ∈ refErrors r) ∧
    (∀ cs i e tid, r.code_structure = some cs → cs.edges[i]? = some e →
      pyTruthy e.target = some tid → tid ∉ nodeIds r →
      RefError.edgeTarget i tid ∈ refErrors r) ∧
    (∀ cs i n pid, r.code_structure = some cs → cs.nodes[i]? = some n →
      pyTruthy n.parent = some pid → pid ∉ nodeIds r →
      RefError.nodeParent i pid ∈ refErrors r) ∧
    (∀ et ui u ti tr si stp sid, r.execution_trace = some et →
      et.traceable_units[ui]? = some u → u.traces[ti]? = some tr →
      tr.format = some "step-by-step" → tr.data.steps[si]? = some stp →
      pyTruthy stp.scope_id = some sid → sid ∉ scopeIds r →
      RefError.stepScope ui ti si sid ∈ refErrors r) ∧
    (∀ et ui u ti tr si sc pid, r.execution_trace = some et →
      et.traceable_units[ui]? = some u → u.traces[ti]? = some tr →
      tr.format = some "step-by-step" → tr.data.variableScopes[si]? = some sc →
      pyTruthy sc.parent_scope_id = some pid → pid ∉ scopeIds r →
      RefError.scopeParent ui ti si pid ∈ refErrors r) ∧
    (∀ et ui u ti tr fi fr lid, r.execution_trace = some et →
      et.traceable_units[ui]? = some u → u.traces[ti]? = some tr →
      tr.format = some "step-by-step" → tr.data.callStack[fi]? = some fr →
      pyTruthy fr.local_scope_id = some lid → lid ∉ scopeIds r →
      RefError.frameLocalScope ui ti fi lid ∈ refErrors r) ∧
    (∀ et ui u ti tr fi fr pid, r.execution_trace = some et →
      et.traceable_units[ui]? = some u → u.traces[ti]? = some tr →
      tr.format = some "step-by-step" → tr.data.callStack[fi]? = some fr →
      pyTruthy fr.parent_frame_id = some pid → pid ∉ frameIds r →
      RefError.frameParent ui ti fi pid ∈ refErrors r) ∧
    (∀ ci i fl nid, r.concurrency_info = some ci → ci.flows[i]? = some fl →
      pyTruthy fl.start_point = some nid → nid ∉ nodeIds r →
      RefError.flowStart i nid ∈ refErrors r) ∧
    (∀ ci i fl nid, r.concurrency_info = some ci → ci.flows[i]? = some fl →
      pyTruthy fl.end_point = some nid → nid ∉ nodeIds r →
      RefError.flowEnd i nid ∈ refErrors r) ∧
    (∀ ci i sp fid, r.concurrency_info = some ci → ci.sync_points[i]? = some sp →
      fid ∈ sp.waiting_flows → fid ∉ flowIds r →
      RefError.syncWaitingFlow i fid ∈ refErrors r) ∧
    (∀ ci i fl uid, r.concurrency_info = some ci → ci.flows[i]? = some fl →
      uid ∈ fl.involved_units → uid ∉ traceableUnitIds r →
      RefWarning.flowInvolvedUnit i uid ∈ refWarnings r) ∧
    (refErrors r ≠ [] → (validateComplete [] r).is_valid = false) := by
  refine ⟨?_, ?_, ?_, ?_, ?_, ?_, ?_, ?_, ?_, ?_, ?_, ?_, ?_⟩
  · intro bm i btn nid hbm hbtn hpy hnid
    unfold refErrors
    refine List.mem_append_left _ (List.mem_append_left _ (List.mem_append_left _ ?_))
    rw [hbm]
    refine mem_collectIdx bm.launch_buttons 0 i btn hbtn ?_
    simp [checkRef, hpy, hnid]
  · intro cs i e sid hcs he hpy hsid
    unfold refErrors
    refine List.mem_append_left _ (List.mem_append_left _ (List.mem_append_right _ ?_))
    rw [hcs]
    refine List.mem_append_left _ ?_
    refine mem_collectIdx cs.edges 0 i e he ?_
    refine List.mem_append_left _ ?_
    simp [checkRef, hpy, hsid]
  · intro cs i e tid hcs he hpy htid
    unfold refErrors
    refine List.mem_append_left _ (List.mem_append_left _ (List.mem_append_right _ ?_))
    rw [hcs]
    refine List.mem_append_left _ ?_
    refine mem_collectIdx cs.edges 0 i e he ?_
    refine List.mem_append_right _ ?_
    simp [checkRef, hpy, htid]
  · intro cs i n pid hcs hn hpy hpid
    unfold refErrors
    refine List.mem_append_left _ (List.mem_append_left _ (List.mem_append_right _ ?_))
    rw [hcs]
    refine List.mem_append_right _ ?_
    refine mem_collectIdx cs.nodes 0 i n hn ?_
    simp [checkRef, hpy, hpid]
  · intro et ui u ti tr si stp sid het hu htr hfmt hstep hpy hsid
    unfold refErrors
    refine List.mem_append_left _ (List.mem_append_right _ ?_)
    rw [het]
    refine mem_collectIdx et.traceable_units 0 ui u hu ?_
    simp only [Nat.zero_add]
    refine mem_collectIdx u.traces 0 ti tr htr ?_
    simp only [Nat.zero_add]
    rw [if_pos hfmt]
    refine List.mem_append_left _ (List.mem_append_left _ ?_)
    refine mem_collectIdx tr.data.steps 0 si stp hstep ?_
    simp [checkRef, hpy, hsid]
  · intro et ui u ti tr si sc pid het hu htr hfmt hsc hpy hpid
    unfold refErrors
    refine List.mem_append_left _ (List.mem_append_right _ ?_)
    rw [het]
    refine mem_collectIdx et.traceable_units 0 ui u hu ?_
    simp only [Nat.zero_add]
    refine mem_collectIdx u.traces 0 ti tr htr ?_
    simp only [Nat.zero_add]
    rw [if_pos hfmt]
    refine List.mem_append_left _ (List.mem_append_right _ ?_)
    refine mem_collectIdx tr.data.variableScopes 0 si sc hsc ?_
    simp [checkRef, hpy, hpid]
  · intro et ui u ti tr fi fr lid het hu htr hfmt hfr hpy hlid
    unfold refErrors
    refine List.mem_append_left _ (List.mem_append_right _ ?_)
    rw [het]
    refine mem_collectIdx et.traceable_units 0 ui u hu ?_
    simp only [Nat.zero_add]
    refine mem_collectIdx u.traces 0 ti tr htr ?_
    simp only [Nat.zero_add]
    rw [if_pos hfmt]
    refine List.mem_append_right _ ?_
    refine mem_collectIdx tr.data.callStack 0 fi fr hfr ?_
    refine List.mem_append_left _ ?_
    simp [checkRef, hpy, hlid]
  · intro et ui u ti tr fi fr pid het hu htr hfmt hfr hpy hpid
    unfold refErrors
    refine List.mem_append_left _ (List.mem_append_right _ ?_)
    rw [het]
    refine mem_collectIdx et.traceable_units 0 ui u hu ?_
    simp only [Nat.zero_add]
    refine mem_collectIdx u.traces 0 ti tr htr ?_
    simp only [Nat.zero_add]
    rw [if_pos hfmt]
    refine List.mem_append_right _ ?_
    refine mem_collectIdx tr.data.callStack 0 fi fr hfr ?_
    refine List.mem_append_right _ ?_
    simp [checkRef, hpy, hpid]
  · intro ci i fl nid hci hfl hpy hnid
    unfold refErrors
    refine List.mem_append_right _ ?_
    rw [hci]
    refine List.mem_append_left _ ?_
    refine mem_collectIdx ci.flows 0 i fl hfl ?_
    refine List.mem_append_left _ ?_
    simp [checkRef, hpy, hnid]
  · intro ci i fl nid hci hfl hpy hnid
    unfold refErrors
    refine List.mem_append_right _ ?_
    rw [hci]
    refine List.mem_append_left _ ?_
    refine mem_collectIdx ci.flows 0 i fl hfl ?_
    refine List.mem_append_right _ ?_
    simp [checkRef, hpy, hnid]
  · intro ci i sp fid hci hsp hmem hnotin
    unfold refErrors
    refine List.mem_append_right _ ?_
    rw [hci]
    refine List.mem_append_right _ ?_
    refine mem_collectIdx ci.sync_points 0 i sp hsp ?_
    refine mem_collectAll sp.waiting_flows fid hmem ?_
    simp [hnotin]
  · intro ci i fl uid hci hfl hmem hnotin
    unfold refWarnings
    rw [hci]
    refine mem_collectIdx ci.flows 0 i fl hfl ?_
    refine mem_collectAll fl.involved_units uid hmem ?_
    simp [hnotin]
  · intro hne
    obtain ⟨-, -, hiff⟩ := validateComplete_ok_spec r
    cases hb : (validateComplete [] r).is_valid
    · rfl
    · exact absurd (hiff.mp hb).2.2.1 hne

/-- Witness for C5: a report whose only edge's `target` names the id `x`
while there are no nodes yields the hard edge-target error for edge 0 and
id `x`, a dangling `involved_units` entry yields the warning (not an
error), and the complete validation (schema passing) is invalid. -/
theorem validator_dangling_references_witness :
    RefError.edgeTarget 0 "x" ∈ refErrors
      { code_structure := some { nodes := [], edges := [{ target := some "x" }] },
        concurrency_info := some { flows := [{ involved_units := ["u9"] }] } } ∧
    RefWarning.flowInvolvedUnit 0 "u9" ∈ refWarnings
      { code_structure := some { nodes := [], edges := [{ target := some "x" }] },
        concurrency_info := some { flows := [{ involved_units := ["u9"] }] } } ∧
    (validateComplete []
      { code_structure := some { nodes := [], edges := [{ target := some "x" }] },
        concurrency_info := some { flows := [{ involved_units := ["u9"] }] } }).is_valid
      = false := by
  obtain ⟨-, -, htgt, -, -, -, -, -, -, -, -, hwarn, hvalid⟩ :=
    validator_dangling_references
      { code_structure := some { nodes := [], edges := [{ target := some "x" }] },
        concurrency_info := some { flows := [{ involved_units := ["u9"] }] } }
  have hmem := htgt { nodes := [], edges := [{ target := some "x" }] } 0
    { target := some "x" } "x" rfl rfl rfl (by simp [nodeIds])
  have hw := hwarn { flows := [{ involved_units := ["u9"] }] } 0
    { involved_units := ["u9"] } "u9" rfl rfl (by simp) (by simp [traceableUnitIds])
  exact ⟨hmem, hw, hvalid (List.ne_nil_of_mem hmem)⟩

/-- C6.  For each step-by-step trace, the validator collects the
`execution_order` integers of its steps, variable scopes and call-stack
frames combined; if the collection has a duplicate it reports one error for
that trace carrying the duplicated value(s) (every value occurring at least
twice is among them), and if the collection is not sorted ascending it
reports a separate error for that trace; any such error makes
`validate_complete` (with the schema check passing) invalid.
-/
theorem validator_execution_order (r : Report) :
    (∀ (et : ExecutionTrace) (ui : Nat) (u : TraceableUnit) (ti : Nat) (tr : Trace),
      r.execution_trace = some et →
      et.traceable_units[ui]? = some u → u.traces[ti]? = some tr →
      tr.format = some "step-by-step" →
      (¬ (traceOrders tr.data).Nodup →
        OrderError.duplicate ui ti
          ((traceOrders tr.data).filter (fun o => 1 < (traceOrders tr.data).count o))
          ∈ orderErrors r) ∧
      (∀ v : Int, 2 ≤ (traceOrders tr.data).count v →
        v ∈ (traceOrders tr.data).filter (fun o => 1 < (traceOrders tr.data).count o)) ∧
      (¬ (traceOrders tr.data).Sorted (· ≤ ·) →
        OrderError.notSorted ui ti ∈ orderErrors r)) ∧
    (orderErrors r ≠ [] → (validateComplete [] r).is_valid = false) := by
  constructor
  · intro et ui u ti tr het hu htr hfmt
    have hbody : ∀ b : OrderError,
        b ∈ ((if (traceOrders tr.data).dedup.length ≠ (traceOrders tr.data).length then
                [OrderError.duplicate ui ti
                  ((traceOrders tr.data).filter (fun o => 1 < (traceOrders tr.data).count o))]
              else [])
             ++ (if traceOrders tr.data ≠
                    (traceOrders tr.data).insertionSort (· ≤ ·) then
                  [OrderError.notSorted ui ti] else [])) →
        b ∈ orderErrors r := by
      intro b hb
      rw [orderErrors, het]
      refine mem_collectIdx et.traceable_units 0 ui u hu ?_
      refine mem_collectIdx u.traces 0 ti tr htr ?_
      rw [Nat.zero_add, Nat.zero_add]
      rw [if_neg (by simp [hfmt])]
      exact hb
    refine ⟨?_, ?_, ?_⟩
    · intro hdup
      refine hbody _ (List.mem_append_left _ ?_)
      rw [if_pos ?_]
      · simp
      · intro hcontra
        exact hdup ((nodup_iff_dedup_length (traceOrders tr.data)).mpr hcontra)
    · intro v hv
      refine List.mem_filter.mpr ⟨?_, ?_⟩
      · exact List.count_pos_iff.mp (by omega)
      · simp
        omega
    · intro hnsort
      refine hbody _ (List.mem_append_right _ ?_)
      rw [if_pos ?_]
      · simp
      · intro hcontra
        exact hnsort ((sorted_iff_insertionSort_eq (traceOrders tr.data)).mpr hcontra.symm)
  · intro hne
    obtain ⟨-, -, hiff⟩ := validateComplete_ok_spec r
    cases hb : (validateComplete [] r).is_valid
    · rfl
    · exact absurd (hiff.mp hb).2.2.2 hne

/-- Witness for C6: a report whose single step-by-step trace has two steps
sharing `execution_order = 5` yields the duplicate error for trace
`(0, 0)` naming the value 5, and the complete validation is invalid. -/
theorem validator_execution_order_witness :
    OrderError.duplicate 0 0 [5, 5] ∈ orderErrors
      { execution_trace := some { traceable_units := [{ traces := [{
          format := some "step-by-step",
          data := { steps := [{ execution_order := some 5 },
                              { execution_order := some 5 }] } }] }] } } ∧
    (5 : Int) ∈ [(5 : Int), 5] ∧
    (validateComplete []
      { execution_trace := some { traceable_units := [{ traces := [{
          format := some "step-by-step",
          data := { steps := [{ execution_order := some 5 },
                              { execution_order := some 5 }] } }] }] } }).is_valid = false := by
  obtain ⟨hmain, hvalid⟩ := validator_execution_order
    { execution_trace := some { traceable_units := [{ traces := [{
        format := some "step-by-step",
        data := { steps := [{ execution_order := some 5 },
                            { execution_order := some 5 }] } }] }] } }
  obtain ⟨hdup, hname, -⟩ := hmain
    { traceable_units := [{ traces := [{
        format := some "step-by-step",
        data := { steps := [{ execution_order := some 5 },
                            { execution_order := some 5 }] } }] }] }
    0
    { traces := [{ format := some "step-by-step",
                   data := { steps := [{ execution_order := some 5 },
                                       { execution_order := some 5 }] } }] }
    0
    { format := some "step-by-step",
      data := { steps := [{ execution_order := some 5 },
                          { execution_order := some 5 }] } }
    rfl rfl rfl rfl
  have hmem := hdup (by decide)
  have hname5 := hname 5 (by decide)
  refine ⟨hmem, hname5, hvalid (List.ne_nil_of_mem hmem)⟩

end Validator

end AIFlow
